import Mathlib

/-!
# InvokeShield: a shallow embedding of `invokeshield.hpp`

Machine words are natural numbers. `std::size_t` and `std::uintptr_t` are the
64-bit words `0 ≤ x < 2^64`; a value of an unsigned type `T` of width `w` is a
natural number below `2^w`, and a conversion to `T` is `% 2^w`.
Addresses are 64-bit words and the null pointer is the word `0`.

A callable is a state-passing function `A → σ → R × σ`: called with the
arguments in the state `s` it gives back its result and the state it leaves.
Calling through a function pointer that holds the address `p` is
`mem p args s`, where `mem` is the code memory of the program.
The zero value `R{}` of a return type is `0 : R`.
-/

namespace ivs

/-! ## `ct_rnd` -/

/-- The body of `ct_rnd<N>::mix`, on 64-bit words. -/
def ct_rnd.mix (x : Nat) : Nat :=
  let x := x ^^^ (x >>> 33)
  let x := (x * 0xff51afd7ed558ccd) % 2 ^ 64
  let x := x ^^^ (x >>> 33)
  let x := (x * 0xc4ceb9fe1a85ec53) % 2 ^ 64
  let x := x ^^^ (x >>> 33)
  x

/-- The constant `ct_rnd<N>::value = mix(N * 0x9e3779b97f4a7c15ULL)`. -/
def ct_rnd.value (N : Nat) : Nat :=
  ct_rnd.mix ((N * 0x9e3779b97f4a7c15) % 2 ^ 64)

/-- The step `x ^= x >> 33` of `mix`. -/
def xorshift33 (x : Nat) : Nat :=
  x ^^^ (x >>> 33)

/-- The step `x *= c` of `mix`, on 64-bit words. -/
def mul64 (c x : Nat) : Nat :=
  (x * c) % 2 ^ 64

/-! ## `enc_val` -/

/-- The struct `enc_val<T, Key>`, for an unsigned `T` of width `w`. -/
structure enc_val (w Key : Nat) where
  data : Nat
deriving DecidableEq, Repr

/-- The constructor `enc_val(T v) : data(v ^ Key)`: the XOR is computed on
`std::size_t` and converted back to `T`. -/
def enc_val.ctor (w Key : Nat) (v : Nat) : enc_val w Key :=
  ⟨(v ^^^ Key) % 2 ^ w⟩

/-- The member `T dec() const { return data ^ Key; }`. -/
def enc_val.dec {w Key : Nat} (e : enc_val w Key) : Nat :=
  (e.data ^^^ Key) % 2 ^ w

/-! ## `ptr_guard` -/

/-- The class `ptr_guard<P, Key>`; its one member is a `std::uintptr_t`. -/
structure ptr_guard (Key : Nat) where
  ptr : Nat
deriving DecidableEq, Repr

/-- The constructor `ptr_guard(P p) : ptr(reinterpret_cast<std::uintptr_t>(p) ^ Key)`.
Both operands are 64-bit words, and so is their XOR. -/
def ptr_guard.ctor (Key : Nat) (p : Nat) : ptr_guard Key :=
  ⟨p ^^^ Key⟩

/-- The member `P get() const`. -/
def ptr_guard.get {Key : Nat} (g : ptr_guard Key) : Nat :=
  let x := g.ptr ^^^ Key
  x

/-! ## `call_ctx` -/

/-- The struct `call_ctx<R, F>`. -/
structure call_ctx (R F : Type) where
  func : F
  check : Nat

/-- The member `R invoke(Args&&... args) const`. -/
def call_ctx.invoke {R A σ : Type} [Zero R] (ctx : call_ctx R (A → σ → R × σ))
    (args : A) (s : σ) : R × σ :=
  let v := ctx.check
  if v = 0 then (0, s)
  else ctx.func args s

/-- The function `make_ctx<R>(f, check)`. -/
def make_ctx (R : Type) {F : Type} (f : F) (check : Nat) : call_ctx R F :=
  ⟨f, check⟩

/-! ## `dual_guard` -/

/-- The struct `dual_guard<P, Key1, Key2>`. -/
structure dual_guard (Key1 Key2 : Nat) where
  p1 : Nat
  p2 : Nat
deriving DecidableEq, Repr

/-- The constructor `dual_guard(P ptr)`. -/
def dual_guard.ctor (Key1 Key2 : Nat) (ptr : Nat) : dual_guard Key1 Key2 :=
  ⟨ptr ^^^ Key1, ptr ^^^ Key2⟩

/-- The member `P get() const`; `nullptr` is the word `0`. -/
def dual_guard.get {Key1 Key2 : Nat} (g : dual_guard Key1 Key2) : Nat :=
  let a := g.p1 ^^^ Key1
  let b := g.p2 ^^^ Key2
  if a = b then a else 0

/-! ## `multi_enc` -/

/-- The specialisation `multi_enc<T, K1, K2>`, for an unsigned `T` of width `w`. -/
structure multi_enc2 (w K1 K2 : Nat) where
  d1 : Nat
  d2 : Nat
deriving DecidableEq, Repr

/-- The constructor `multi_enc(T v) : d1(v ^ K1), d2(v ^ K2)`. -/
def multi_enc2.ctor (w K1 K2 : Nat) (v : Nat) : multi_enc2 w K1 K2 :=
  ⟨(v ^^^ K1) % 2 ^ w, (v ^^^ K2) % 2 ^ w⟩

/-- The member `T dec() const` of the two-key specialisation. -/
def multi_enc2.dec {w K1 K2 : Nat} (e : multi_enc2 w K1 K2) : Nat :=
  let a := (e.d1 ^^^ K1) % 2 ^ w
  let b := (e.d2 ^^^ K2) % 2 ^ w
  if a = b then a else 0

/-- The specialisation `multi_enc<T, K1, K2, K3>`, for an unsigned `T` of width `w`. -/
structure multi_enc3 (w K1 K2 K3 : Nat) where
  d1 : Nat
  d2 : Nat
  d3 : Nat
deriving DecidableEq, Repr

/-- The constructor `multi_enc(T v) : d1(v ^ K1), d2(v ^ K2), d3(v ^ K3)`. -/
def multi_enc3.ctor (w K1 K2 K3 : Nat) (v : Nat) : multi_enc3 w K1 K2 K3 :=
  ⟨(v ^^^ K1) % 2 ^ w, (v ^^^ K2) % 2 ^ w, (v ^^^ K3) % 2 ^ w⟩

/-- The member `T dec() const` of the three-key specialisation. -/
def multi_enc3.dec {w K1 K2 K3 : Nat} (e : multi_enc3 w K1 K2 K3) : Nat :=
  let a := (e.d1 ^^^ K1) % 2 ^ w
  let b := (e.d2 ^^^ K2) % 2 ^ w
  let c := (e.d3 ^^^ K3) % 2 ^ w
  if a ≠ b ∨ b ≠ c then 0
  else a

/-! ## Memory patches

Between the construction of an encoder and its `dec()` an attacker may
overwrite one raw copy. A protocol below takes, for each redundant encoder
it builds, the patch applied to it in between; `id` is the untampered run. -/

/-- Overwrite the raw copy `d1` of a two-key encoder. -/
def multi_enc2.set_d1 {w K1 K2 : Nat} (x : Nat) (e : multi_enc2 w K1 K2) : multi_enc2 w K1 K2 :=
  ⟨x, e.d2⟩

/-- Overwrite the raw copy `d2` of a two-key encoder. -/
def multi_enc2.set_d2 {w K1 K2 : Nat} (x : Nat) (e : multi_enc2 w K1 K2) : multi_enc2 w K1 K2 :=
  ⟨e.d1, x⟩

/-- Overwrite the raw copy `d1` of a three-key encoder. -/
def multi_enc3.set_d1 {w K1 K2 K3 : Nat} (x : Nat) (e : multi_enc3 w K1 K2 K3) :
    multi_enc3 w K1 K2 K3 :=
  ⟨x, e.d2, e.d3⟩

/-- Overwrite the raw copy `d2` of a three-key encoder. -/
def multi_enc3.set_d2 {w K1 K2 K3 : Nat} (x : Nat) (e : multi_enc3 w K1 K2 K3) :
    multi_enc3 w K1 K2 K3 :=
  ⟨e.d1, x, e.d3⟩

/-- Overwrite the raw copy `d3` of a three-key encoder. -/
def multi_enc3.set_d3 {w K1 K2 K3 : Nat} (x : Nat) (e : multi_enc3 w K1 K2 K3) :
    multi_enc3 w K1 K2 K3 :=
  ⟨e.d1, e.d2, x⟩

/-- Overwrite the raw slot `p1` of a dual guard. -/
def dual_guard.set_p1 {Key1 Key2 : Nat} (x : Nat) (g : dual_guard Key1 Key2) :
    dual_guard Key1 Key2 :=
  ⟨x, g.p2⟩

/-- Overwrite the raw slot `p2` of a dual guard. -/
def dual_guard.set_p2 {Key1 Key2 : Nat} (x : Nat) (g : dual_guard Key1 Key2) :
    dual_guard Key1 Key2 :=
  ⟨g.p1, x⟩

/-! ## The call-guard protocols

Each macro expands to a lambda called on the spot. `counter` is the value of
`__COUNTER__` at the first use inside the expansion; every further use reads
the next value. For each macro, `body` is the lambda with its keys given, and
the macro itself takes the keys from `ct_rnd`. `mem` is the code memory,
`func` the address `&func` of the target.

`IVS_CALL` calls the target by name and forwards any argument list. Every
other macro declares `using fn_t = ret(*)(__VA_ARGS__);` and calls the target
through a pointer of that type: the argument expressions stand where
parameter types belong, so the alias is a type only for the empty argument
list, where it is `ret(*)()`. The lambdas of those macros are therefore the
ones of the empty argument list: `args : Unit`, the target is nullary, and the
call `fn()` is `mem fn () s`. `fn_t_well_formed` and `expansion` say what an
expansion with a given argument list is to the program. -/

/-- The macro `IVS_CALL(ret, func, ...)`. The target is called by name inside
the inner lambda, which takes no argument. -/
def IVS_CALL {R A σ : Type} [Zero R] (counter : Nat) (func : A → σ → R × σ)
    (args : A) (s : σ) : R × σ :=
  let key := ct_rnd.value counter
  let ctx := make_ctx R (fun (_ : Unit) => func args) key
  ctx.invoke () s

/-- The lambda of `IVS_PROTECTED`, keys given and `__VA_ARGS__` empty. -/
def IVS_PROTECTED.body {R σ : Type} [Zero R] (k1 k2 : Nat)
    (mem : Nat → Unit → σ → R × σ) (func : Nat) (args : Unit) (s : σ) : R × σ :=
  let fptr := func
  let pg := ptr_guard.ctor k1 fptr
  let real_fn := pg.get
  let chk := enc_val.ctor 64 k2 k2
  if chk.dec = k2 then mem real_fn args s
  else (0, s)

/-- The macro `IVS_PROTECTED(ret, func)`. -/
def IVS_PROTECTED {R σ : Type} [Zero R] (counter : Nat)
    (mem : Nat → Unit → σ → R × σ) (func : Nat) (args : Unit) (s : σ) : R × σ :=
  IVS_PROTECTED.body (ct_rnd.value counter) (ct_rnd.value (counter + 1)) mem func args s

/-- The lambda of `IVS_INDIRECT`, key given and `__VA_ARGS__` empty. -/
def IVS_INDIRECT.body {R σ : Type} [Zero R] (k : Nat)
    (mem : Nat → Unit → σ → R × σ) (func : Nat) (args : Unit) (s : σ) : R × σ :=
  let p := func
  let p := p ^^^ k
  let p := p ^^^ k
  let real := p
  let dummy : Int := 0
  if dummy = 1 then (0, s)
  else mem real args s

/-- The macro `IVS_INDIRECT(ret, func)`, expanded on source line `line`. -/
def IVS_INDIRECT {R σ : Type} [Zero R] (counter line : Nat)
    (mem : Nat → Unit → σ → R × σ) (func : Nat) (args : Unit) (s : σ) : R × σ :=
  IVS_INDIRECT.body (ct_rnd.value (counter + line)) mem func args s

/-- The lambda of `IVS_SECURE`, keys given and `__VA_ARGS__` empty. -/
def IVS_SECURE.body {R σ : Type} [Zero R] (k1 k2 k3 : Nat)
    (mem : Nat → Unit → σ → R × σ) (func : Nat) (args : Unit) (s : σ) : R × σ :=
  let e1 := enc_val.ctor 64 k1 k1
  let e2 := enc_val.ctor 64 k2 k2
  if e1.dec ≠ k1 ∨ e2.dec ≠ k2 then (0, s)
  else
    let fptr := func
    let pg := ptr_guard.ctor k3 fptr
    let fn := pg.get
    let check := k3
    if check = 0 then (0, s)
    else mem fn args s

/-- The macro `IVS_SECURE(ret, func)`. -/
def IVS_SECURE {R σ : Type} [Zero R] (counter : Nat)
    (mem : Nat → Unit → σ → R × σ) (func : Nat) (args : Unit) (s : σ) : R × σ :=
  IVS_SECURE.body (ct_rnd.value counter) (ct_rnd.value (counter + 1))
    (ct_rnd.value (counter + 2)) mem func args s

/-- The lambda of `IVS_FORTIFIED`, keys given and `__VA_ARGS__` empty. -/
def IVS_FORTIFIED.body {R σ : Type} [Zero R] (k1 k2 : Nat)
    (mem : Nat → Unit → σ → R × σ) (func : Nat) (args : Unit) (s : σ) : R × σ :=
  let fptr := func
  let dg := dual_guard.ctor k1 k2 fptr
  let ptr := dg.get
  if ptr = 0 then (0, s)
  else mem ptr args s

/-- The macro `IVS_FORTIFIED(ret, func)`. -/
def IVS_FORTIFIED {R σ : Type} [Zero R] (counter : Nat)
    (mem : Nat → Unit → σ → R × σ) (func : Nat) (args : Unit) (s : σ) : R × σ :=
  IVS_FORTIFIED.body (ct_rnd.value counter) (ct_rnd.value (counter + 1)) mem func args s

/-- The lambda of `IVS_ARMORED`, keys given and `__VA_ARGS__` empty; `patch` is applied to `guard`
between its construction and `guard.dec()`. -/
def IVS_ARMORED.body {R σ : Type} [Zero R] (k1 k2 k3 : Nat)
    (patch : multi_enc3 64 k1 k2 k3 → multi_enc3 64 k1 k2 k3)
    (mem : Nat → Unit → σ → R × σ) (func : Nat) (args : Unit) (s : σ) : R × σ :=
  let guard := patch (multi_enc3.ctor 64 k1 k2 k3 k1)
  if guard.dec ≠ k1 then (0, s)
  else
    let fptr := func
    let pg := ptr_guard.ctor k2 fptr
    let fn := pg.get
    let check := k3
    if check = 0 then (0, s)
    else mem fn args s

/-- The macro `IVS_ARMORED(ret, func)`. -/
def IVS_ARMORED {R σ : Type} [Zero R] (counter : Nat)
    (patch : multi_enc3 64 (ct_rnd.value counter) (ct_rnd.value (counter + 1))
        (ct_rnd.value (counter + 2)) →
      multi_enc3 64 (ct_rnd.value counter) (ct_rnd.value (counter + 1))
        (ct_rnd.value (counter + 2)))
    (mem : Nat → Unit → σ → R × σ) (func : Nat) (args : Unit) (s : σ) : R × σ :=
  IVS_ARMORED.body (ct_rnd.value counter) (ct_rnd.value (counter + 1))
    (ct_rnd.value (counter + 2)) patch mem func args s

/-- The loop of `IVS_STEALTH`: `volatile int check = 0; for (int i = 0; i < 3; ++i) check ^= (i + 1);`,
as the value `check` holds after it. -/
def IVS_STEALTH.check : Nat :=
  (List.range 3).foldl (fun (check i : Nat) => check ^^^ (i + 1)) 0

/-- The lambda of `IVS_STEALTH`, keys given and `__VA_ARGS__` empty; `patch` is applied to `enc`
between its construction and `enc.dec()`. -/
def IVS_STEALTH.body {R σ : Type} [Zero R] (k1 k2 : Nat)
    (patch : multi_enc2 64 k1 k2 → multi_enc2 64 k1 k2)
    (mem : Nat → Unit → σ → R × σ) (func : Nat) (args : Unit) (s : σ) : R × σ :=
  let enc := patch (multi_enc2.ctor 64 k1 k2 func)
  let addr := enc.dec
  let check := IVS_STEALTH.check
  if check ≠ 0 then (0, s)
  else
    let fn := addr
    mem fn args s

/-- The macro `IVS_STEALTH(ret, func)`. -/
def IVS_STEALTH {R σ : Type} [Zero R] (counter : Nat)
    (patch : multi_enc2 64 (ct_rnd.value counter) (ct_rnd.value (counter + 1)) →
      multi_enc2 64 (ct_rnd.value counter) (ct_rnd.value (counter + 1)))
    (mem : Nat → Unit → σ → R × σ) (func : Nat) (args : Unit) (s : σ) : R × σ :=
  IVS_STEALTH.body (ct_rnd.value counter) (ct_rnd.value (counter + 1)) patch mem func args s

/-- The lambda of `IVS_LAYERED`, keys given and `__VA_ARGS__` empty; `patch` is applied to `e3`
between its construction and `e3.dec()`. -/
def IVS_LAYERED.body {R σ : Type} [Zero R] (k1 k2 k3 k4 : Nat)
    (patch : multi_enc2 64 k3 k4 → multi_enc2 64 k3 k4)
    (mem : Nat → Unit → σ → R × σ) (func : Nat) (args : Unit) (s : σ) : R × σ :=
  let e1 := enc_val.ctor 64 k1 k1
  let e2 := enc_val.ctor 64 k2 k2
  let e3 := patch (multi_enc2.ctor 64 k3 k4 k3)
  if e1.dec ≠ k1 ∨ e2.dec ≠ k2 ∨ e3.dec ≠ k3 then (0, s)
  else
    let fptr := func
    let dg := dual_guard.ctor k1 k2 fptr
    let ptr := dg.get
    if ptr = 0 then (0, s)
    else
      let final_check := k4
      if final_check = 0 then (0, s)
      else mem ptr args s

/-- The macro `IVS_LAYERED(ret, func)`. -/
def IVS_LAYERED {R σ : Type} [Zero R] (counter : Nat)
    (patch : multi_enc2 64 (ct_rnd.value (counter + 2)) (ct_rnd.value (counter + 3)) →
      multi_enc2 64 (ct_rnd.value (counter + 2)) (ct_rnd.value (counter + 3)))
    (mem : Nat → Unit → σ → R × σ) (func : Nat) (args : Unit) (s : σ) : R × σ :=
  IVS_LAYERED.body (ct_rnd.value counter) (ct_rnd.value (counter + 1))
    (ct_rnd.value (counter + 2)) (ct_rnd.value (counter + 3)) patch mem func args s

/-- The loop of `IVS_ULTIMATE`: `volatile int anti_opt = 0; for (volatile int i = 0; i < 5; ++i) anti_opt += i;`,
as the value `anti_opt` holds after it. -/
def IVS_ULTIMATE.anti_opt : Nat :=
  (List.range 5).foldl (fun (anti_opt i : Nat) => anti_opt + i) 0

/-- The lambda of `IVS_ULTIMATE`, keys given and `__VA_ARGS__` empty; `patchP` is applied to `ptr_enc`
and `patchV` to `val_enc` between construction and `dec()`. -/
def IVS_ULTIMATE.body {R σ : Type} [Zero R] (k1 k2 k3 k4 k5 : Nat)
    (patchP : multi_enc3 64 k1 k2 k3 → multi_enc3 64 k1 k2 k3)
    (patchV : multi_enc2 64 k4 k5 → multi_enc2 64 k4 k5)
    (mem : Nat → Unit → σ → R × σ) (func : Nat) (args : Unit) (s : σ) : R × σ :=
  let ptr_enc := patchP (multi_enc3.ctor 64 k1 k2 k3 func)
  let val_enc := patchV (multi_enc2.ctor 64 k4 k5 k4)
  if val_enc.dec ≠ k4 then (0, s)
  else
    let addr := ptr_enc.dec
    if addr = 0 then (0, s)
    else
      let anti_opt := IVS_ULTIMATE.anti_opt
      if anti_opt ≠ 10 then (0, s)
      else
        let addr := addr ^^^ ct_rnd.value 0
        let addr := addr ^^^ ct_rnd.value 0
        let fn := addr
        mem fn args s

/-- The macro `IVS_ULTIMATE(ret, func)`. -/
def IVS_ULTIMATE {R σ : Type} [Zero R] (counter : Nat)
    (patchP : multi_enc3 64 (ct_rnd.value counter) (ct_rnd.value (counter + 1))
        (ct_rnd.value (counter + 2)) →
      multi_enc3 64 (ct_rnd.value counter) (ct_rnd.value (counter + 1))
        (ct_rnd.value (counter + 2)))
    (patchV : multi_enc2 64 (ct_rnd.value (counter + 3)) (ct_rnd.value (counter + 4)) →
      multi_enc2 64 (ct_rnd.value (counter + 3)) (ct_rnd.value (counter + 4)))
    (mem : Nat → Unit → σ → R × σ) (func : Nat) (args : Unit) (s : σ) : R × σ :=
  IVS_ULTIMATE.body (ct_rnd.value counter) (ct_rnd.value (counter + 1))
    (ct_rnd.value (counter + 2)) (ct_rnd.value (counter + 3)) (ct_rnd.value (counter + 4))
    patchP patchV mem func args s

/-! ## The demonstration program -/

/-- The function `int add(int x, int y)` of `main.cpp`, where the sum is in range. -/
def add (x y : Int) : Int :=
  x + y

/-- The function `int multiply(int a, int b)` of `main.cpp`, where the product is in range. -/
def multiply (a b : Int) : Int :=
  a * b

/-- A C function of two arguments with no side effect, as a callable. -/
def pure2 {R σ : Type} (f : Int → Int → R) : Int × Int → σ → R × σ :=
  fun args s => (f args.1 args.2, s)

/-- The address of `add` in the demonstration program's image (any non-null word will do). -/
def add_addr : Nat := 0x401000

/-- The address of `multiply` in the demonstration program's image. -/
def multiply_addr : Nat := 0x401020

/-- The address of a nullary target `int f()` in a program image (any non-null word will do). -/
def target_addr : Nat := 0x401040

/-- A code memory with one function, the nullary `int f()` at `target_addr`,
which returns `42`. No function lives at any other address; a call there is
marked by the result `-1`. -/
def nullary_mem {σ : Type} : Nat → Unit → σ → Int × σ :=
  fun p _ s => if p = target_addr then (42, s) else (-1, s)

/-- A callable with a call counter attached to its state. -/
def counted {R A σ : Type} (f : A → σ → R × σ) : A → σ × Nat → R × (σ × Nat) :=
  fun args st => ((f args st.1).1, ((f args st.1).2, st.2 + 1))

/-- A code memory with a dispatch log attached to its state: every call through
a function pointer appends the address called. -/
def logged {R A σ : Type} (mem : Nat → A → σ → R × σ) :
    Nat → A → σ × List Nat → R × (σ × List Nat) :=
  fun p args st => ((mem p args st.1).1, ((mem p args st.1).2, st.2 ++ [p]))

/-! ## Word lemmas -/

/-- XOR-ing twice with one key, truncating to `w` bits each time, gives back
a `w`-bit value. -/
theorem xor_trunc_cancel (w K v : Nat) (hv : v < 2 ^ w) :
    ((v ^^^ K) % 2 ^ w ^^^ K) % 2 ^ w = v := by
  apply Nat.eq_of_testBit_eq
  intro i
  by_cases hi : i < w
  · simp [Nat.testBit_mod_two_pow, hi]
  · have hle : 2 ^ w ≤ 2 ^ i := Nat.pow_le_pow_right (by decide) (Nat.le_of_not_lt hi)
    have hvi : v.testBit i = false := Nat.testBit_lt_two_pow (Nat.lt_of_lt_of_le hv hle)
    simp [Nat.testBit_mod_two_pow, hi, hvi]

/-- Truncated XOR with a fixed key is injective on `w`-bit values. -/
theorem xor_trunc_inj (w K x y : Nat) (hx : x < 2 ^ w) (hy : y < 2 ^ w)
    (h : (x ^^^ K) % 2 ^ w = (y ^^^ K) % 2 ^ w) : x = y := by
  have h1 := xor_trunc_cancel w K x hx
  have h2 := xor_trunc_cancel w K y hy
  rw [h] at h1
  exact h1.symm.trans h2

/-! ## Lemmas on `ct_rnd` -/

theorem ct_rnd_mix_eq (x : Nat) :
    ct_rnd.mix x =
      xorshift33 (mul64 0xc4ceb9fe1a85ec53 (xorshift33 (mul64 0xff51afd7ed558ccd (xorshift33 x)))) :=
  rfl

theorem xorshift33_lt (x : Nat) (hx : x < 2 ^ 64) : xorshift33 x < 2 ^ 64 := by
  unfold xorshift33
  apply Nat.xor_lt_two_pow hx
  rw [Nat.shiftRight_eq_div_pow]
  exact Nat.lt_of_le_of_lt (Nat.div_le_self _ _) hx

theorem xorshift33_eq_zero (x : Nat) (h : xorshift33 x = 0) : x = 0 := by
  unfold xorshift33 at h
  have h1 : x = x >>> 33 := Nat.xor_eq_zero.mp h
  rw [Nat.shiftRight_eq_div_pow] at h1
  by_contra hne
  have h2 : x / 2 ^ 33 < x := Nat.div_lt_self (Nat.pos_of_ne_zero hne) (by norm_num)
  omega

theorem mul64_lt (c x : Nat) : mul64 c x < 2 ^ 64 :=
  Nat.mod_lt _ (by norm_num)

theorem mul64_eq_zero (c x : Nat) (hc : Nat.Coprime (2 ^ 64) c) (hx : x < 2 ^ 64)
    (h : mul64 c x = 0) : x = 0 := by
  unfold mul64 at h
  have hd : 2 ^ 64 ∣ x * c := Nat.dvd_of_mod_eq_zero h
  have hd2 : 2 ^ 64 ∣ x := hc.dvd_of_dvd_mul_right hd
  exact Nat.eq_zero_of_dvd_of_lt hd2 hx

theorem ct_rnd_mix_lt (x : Nat) : ct_rnd.mix x < 2 ^ 64 := by
  rw [ct_rnd_mix_eq]
  exact xorshift33_lt _ (mul64_lt _ _)

theorem ct_rnd_mix_eq_zero (x : Nat) (hx : x < 2 ^ 64) (h : ct_rnd.mix x = 0) : x = 0 := by
  rw [ct_rnd_mix_eq] at h
  have h4 := xorshift33_eq_zero _ h
  have h3 := mul64_eq_zero _ _ (by norm_num) (xorshift33_lt _ (mul64_lt _ _)) h4
  have h2 := xorshift33_eq_zero _ h3
  have h1 := mul64_eq_zero _ _ (by norm_num) (xorshift33_lt _ hx) h2
  exact xorshift33_eq_zero _ h1

/-- Every key is a 64-bit word. -/
theorem ct_rnd_value_lt (n : Nat) : ct_rnd.value n < 2 ^ 64 :=
  ct_rnd_mix_lt _

/-- The key of ordinal `0` is `0`. -/
theorem ct_rnd_value_zero : ct_rnd.value 0 = 0 := by
  decide

/-- The key of every ordinal from `1` to `2^64 - 1` is not `0`. -/
theorem ct_rnd_value_ne_zero (n : Nat) (h0 : 0 < n) (hn : n < 2 ^ 64) :
    ct_rnd.value n ≠ 0 := by
  intro h
  have hlt : (n * 0x9e3779b97f4a7c15) % 2 ^ 64 < 2 ^ 64 := Nat.mod_lt _ (by norm_num)
  have h1 : (n * 0x9e3779b97f4a7c15) % 2 ^ 64 = 0 := ct_rnd_mix_eq_zero _ hlt h
  have hc : Nat.Coprime (2 ^ 64) 0x9e3779b97f4a7c15 := by norm_num
  have h2 : n = 0 := mul64_eq_zero 0x9e3779b97f4a7c15 n hc hn h1
  exact absurd h2 (Nat.pos_iff_ne_zero.mp h0)

/-! ## Lemmas on the primitives -/

theorem enc_val_dec_ctor (w Key v : Nat) (hv : v < 2 ^ w) :
    (enc_val.ctor w Key v).dec = v :=
  xor_trunc_cancel w Key v hv

theorem ptr_guard_get_ctor (Key p : Nat) : (ptr_guard.ctor Key p).get = p := by
  simp [ptr_guard.ctor, ptr_guard.get, Nat.xor_cancel_right]

theorem dual_guard_get_ctor (Key1 Key2 p : Nat) : (dual_guard.ctor Key1 Key2 p).get = p := by
  simp [dual_guard.ctor, dual_guard.get, Nat.xor_cancel_right]

theorem dual_guard_get_set_p1 (Key1 Key2 p x : Nat) (hx : x ≠ (dual_guard.ctor Key1 Key2 p).p1) :
    ((dual_guard.ctor Key1 Key2 p).set_p1 x).get = 0 := by
  have hne : x ^^^ Key1 ≠ p := by
    intro h
    apply hx
    show x = p ^^^ Key1
    rw [← h, Nat.xor_cancel_right]
  simp [dual_guard.ctor, dual_guard.get, dual_guard.set_p1, Nat.xor_cancel_right, hne]

theorem dual_guard_get_set_p2 (Key1 Key2 p x : Nat) (hx : x ≠ (dual_guard.ctor Key1 Key2 p).p2) :
    ((dual_guard.ctor Key1 Key2 p).set_p2 x).get = 0 := by
  have hne : p ≠ x ^^^ Key2 := by
    intro h
    apply hx
    show x = p ^^^ Key2
    rw [h, Nat.xor_cancel_right]
  simp [dual_guard.ctor, dual_guard.get, dual_guard.set_p2, Nat.xor_cancel_right, hne]

/-- A `w`-bit word other than the stored copy decodes to a value other than `v`. -/
theorem xor_trunc_ne (w K v x : Nat) (hv : v < 2 ^ w) (hx : x < 2 ^ w)
    (hne : x ≠ (v ^^^ K) % 2 ^ w) : (x ^^^ K) % 2 ^ w ≠ v := by
  intro h
  apply hne
  apply xor_trunc_inj w K x _ hx (Nat.mod_lt _ (Nat.two_pow_pos w))
  rw [h, xor_trunc_cancel w K v hv]

theorem multi_enc2_dec_ctor (w K1 K2 v : Nat) (hv : v < 2 ^ w) :
    (multi_enc2.ctor w K1 K2 v).dec = v := by
  simp [multi_enc2.ctor, multi_enc2.dec, xor_trunc_cancel _ _ _ hv]

theorem multi_enc2_dec_set_d1 (w K1 K2 v x : Nat) (hv : v < 2 ^ w) (hx : x < 2 ^ w)
    (hne : x ≠ (multi_enc2.ctor w K1 K2 v).d1) :
    ((multi_enc2.ctor w K1 K2 v).set_d1 x).dec = 0 := by
  have h := xor_trunc_ne w K1 v x hv hx hne
  simp [multi_enc2.ctor, multi_enc2.dec, multi_enc2.set_d1, xor_trunc_cancel _ _ _ hv, h]

theorem multi_enc2_dec_set_d2 (w K1 K2 v x : Nat) (hv : v < 2 ^ w) (hx : x < 2 ^ w)
    (hne : x ≠ (multi_enc2.ctor w K1 K2 v).d2) :
    ((multi_enc2.ctor w K1 K2 v).set_d2 x).dec = 0 := by
  have h := (xor_trunc_ne w K2 v x hv hx hne).symm
  simp [multi_enc2.ctor, multi_enc2.dec, multi_enc2.set_d2, xor_trunc_cancel _ _ _ hv, h]

theorem multi_enc3_dec_ctor (w K1 K2 K3 v : Nat) (hv : v < 2 ^ w) :
    (multi_enc3.ctor w K1 K2 K3 v).dec = v := by
  simp [multi_enc3.ctor, multi_enc3.dec, xor_trunc_cancel _ _ _ hv]

theorem multi_enc3_dec_set_d1 (w K1 K2 K3 v x : Nat) (hv : v < 2 ^ w) (hx : x < 2 ^ w)
    (hne : x ≠ (multi_enc3.ctor w K1 K2 K3 v).d1) :
    ((multi_enc3.ctor w K1 K2 K3 v).set_d1 x).dec = 0 := by
  have h := xor_trunc_ne w K1 v x hv hx hne
  simp [multi_enc3.ctor, multi_enc3.dec, multi_enc3.set_d1, xor_trunc_cancel _ _ _ hv, h]

theorem multi_enc3_dec_set_d2 (w K1 K2 K3 v x : Nat) (hv : v < 2 ^ w) (hx : x < 2 ^ w)
    (hne : x ≠ (multi_enc3.ctor w K1 K2 K3 v).d2) :
    ((multi_enc3.ctor w K1 K2 K3 v).set_d2 x).dec = 0 := by
  have h := (xor_trunc_ne w K2 v x hv hx hne).symm
  simp [multi_enc3.ctor, multi_enc3.dec, multi_enc3.set_d2, xor_trunc_cancel _ _ _ hv, h]

theorem multi_enc3_dec_set_d3 (w K1 K2 K3 v x : Nat) (hv : v < 2 ^ w) (hx : x < 2 ^ w)
    (hne : x ≠ (multi_enc3.ctor w K1 K2 K3 v).d3) :
    ((multi_enc3.ctor w K1 K2 K3 v).set_d3 x).dec = 0 := by
  have h := (xor_trunc_ne w K3 v x hv hx hne).symm
  simp [multi_enc3.ctor, multi_enc3.dec, multi_enc3.set_d3, xor_trunc_cancel _ _ _ hv, h]

/-! ## Lemmas on the protocols -/

theorem IVS_STEALTH_check_eq : IVS_STEALTH.check = 0 := by
  decide

theorem IVS_ULTIMATE_anti_opt_eq : IVS_ULTIMATE.anti_opt = 10 := by
  decide

/-- At every ordinal from `1` to `2^64 - 1`, `IVS_CALL` is one call of the target. -/
theorem IVS_CALL_of_pos {R A σ : Type} [Zero R] (n : Nat) (h0 : 0 < n) (hn : n < 2 ^ 64)
    (func : A → σ → R × σ) (args : A) (s : σ) :
    IVS_CALL n func args s = func args s := by
  simp [IVS_CALL, make_ctx, call_ctx.invoke, ct_rnd_value_ne_zero n h0 hn]

/-- At ordinal `0`, `IVS_CALL` returns the zero value and calls nothing. -/
theorem IVS_CALL_zero {R A σ : Type} [Zero R] (func : A → σ → R × σ) (args : A) (s : σ) :
    IVS_CALL 0 func args s = (0, s) := by
  simp [IVS_CALL, make_ctx, call_ctx.invoke, ct_rnd_value_zero]

/-- With `d1` of its address encoder overwritten, `IVS_STEALTH` calls through
the null pointer. -/
theorem IVS_STEALTH_body_set_d1 {R σ : Type} [Zero R] (k1 k2 a x : Nat) (ha : a < 2 ^ 64)
    (hx : x < 2 ^ 64) (hne : x ≠ (multi_enc2.ctor 64 k1 k2 a).d1)
    (mem : Nat → Unit → σ → R × σ) (args : Unit) (s : σ) :
    IVS_STEALTH.body k1 k2 (multi_enc2.set_d1 x) mem a args s = mem 0 args s := by
  simp [IVS_STEALTH.body, IVS_STEALTH_check_eq, multi_enc2_dec_set_d1 64 k1 k2 a x ha hx hne]

/-- With `d2` of its address encoder overwritten, `IVS_STEALTH` calls through
the null pointer. -/
theorem IVS_STEALTH_body_set_d2 {R σ : Type} [Zero R] (k1 k2 a x : Nat) (ha : a < 2 ^ 64)
    (hx : x < 2 ^ 64) (hne : x ≠ (multi_enc2.ctor 64 k1 k2 a).d2)
    (mem : Nat → Unit → σ → R × σ) (args : Unit) (s : σ) :
    IVS_STEALTH.body k1 k2 (multi_enc2.set_d2 x) mem a args s = mem 0 args s := by
  simp [IVS_STEALTH.body, IVS_STEALTH_check_eq, multi_enc2_dec_set_d2 64 k1 k2 a x ha hx hne]

/-- The lambda of `IVS_ARMORED` fails closed on a patched `guard` that decodes
to `0`, provided the first key is not `0`. -/
theorem IVS_ARMORED_body_of_dec_zero {R σ : Type} [Zero R] (k1 k2 k3 : Nat) (hk1 : k1 ≠ 0)
    (patch : multi_enc3 64 k1 k2 k3 → multi_enc3 64 k1 k2 k3)
    (hp : (patch (multi_enc3.ctor 64 k1 k2 k3 k1)).dec = 0)
    (mem : Nat → Unit → σ → R × σ) (a : Nat) (args : Unit) (s : σ) :
    IVS_ARMORED.body k1 k2 k3 patch mem a args s = (0, s) := by
  simp [IVS_ARMORED.body, hp, Ne.symm hk1]

/-- From ordinal `1` on, `IVS_ARMORED` fails closed when one raw copy of
`guard` is overwritten by a different word. -/
theorem IVS_ARMORED_fail_closed_of_pos {R σ : Type} [Zero R] (c a x : Nat) (h0 : 0 < c)
    (hc : c + 2 < 2 ^ 64) (hx : x < 2 ^ 64)
    (mem : Nat → Unit → σ → R × σ) (args : Unit) (s : σ) :
    (x ≠ (multi_enc3.ctor 64 (ct_rnd.value c) (ct_rnd.value (c + 1)) (ct_rnd.value (c + 2))
          (ct_rnd.value c)).d1 →
        IVS_ARMORED c (multi_enc3.set_d1 x) mem a args s = (0, s)) ∧
      (x ≠ (multi_enc3.ctor 64 (ct_rnd.value c) (ct_rnd.value (c + 1)) (ct_rnd.value (c + 2))
            (ct_rnd.value c)).d2 →
          IVS_ARMORED c (multi_enc3.set_d2 x) mem a args s = (0, s)) ∧
      (x ≠ (multi_enc3.ctor 64 (ct_rnd.value c) (ct_rnd.value (c + 1)) (ct_rnd.value (c + 2))
            (ct_rnd.value c)).d3 →
          IVS_ARMORED c (multi_enc3.set_d3 x) mem a args s = (0, s)) := by
  have hk1 : ct_rnd.value c ≠ 0 := ct_rnd_value_ne_zero c h0 (by omega)
  have hlt := ct_rnd_value_lt c
  refine ⟨fun hne => ?_, fun hne => ?_, fun hne => ?_⟩
  · exact IVS_ARMORED_body_of_dec_zero _ _ _ hk1 _
      (multi_enc3_dec_set_d1 64 _ _ _ _ x hlt hx hne) mem a args s
  · exact IVS_ARMORED_body_of_dec_zero _ _ _ hk1 _
      (multi_enc3_dec_set_d2 64 _ _ _ _ x hlt hx hne) mem a args s
  · exact IVS_ARMORED_body_of_dec_zero _ _ _ hk1 _
      (multi_enc3_dec_set_d3 64 _ _ _ _ x hlt hx hne) mem a args s

/-- The lambda of `IVS_ULTIMATE` fails closed when `val_enc` decodes to `0`
and the fourth key is not `0`. -/
theorem IVS_ULTIMATE_body_of_val_zero {R σ : Type} [Zero R] (k1 k2 k3 k4 k5 : Nat)
    (hk4 : k4 ≠ 0)
    (patchP : multi_enc3 64 k1 k2 k3 → multi_enc3 64 k1 k2 k3)
    (patchV : multi_enc2 64 k4 k5 → multi_enc2 64 k4 k5)
    (hp : (patchV (multi_enc2.ctor 64 k4 k5 k4)).dec = 0)
    (mem : Nat → Unit → σ → R × σ) (a : Nat) (args : Unit) (s : σ) :
    IVS_ULTIMATE.body k1 k2 k3 k4 k5 patchP patchV mem a args s = (0, s) := by
  simp [IVS_ULTIMATE.body, hp, Ne.symm hk4]

/-- The lambda of `IVS_ULTIMATE` fails closed when `ptr_enc` decodes to `0`. -/
theorem IVS_ULTIMATE_body_of_ptr_zero {R σ : Type} [Zero R] (k1 k2 k3 k4 k5 : Nat)
    (patchP : multi_enc3 64 k1 k2 k3 → multi_enc3 64 k1 k2 k3)
    (patchV : multi_enc2 64 k4 k5 → multi_enc2 64 k4 k5)
    (mem : Nat → Unit → σ → R × σ) (a : Nat) (args : Unit) (s : σ)
    (hp : (patchP (multi_enc3.ctor 64 k1 k2 k3 a)).dec = 0) :
    IVS_ULTIMATE.body k1 k2 k3 k4 k5 patchP patchV mem a args s = (0, s) := by
  simp [IVS_ULTIMATE.body, hp]

/-- The lambda of `IVS_LAYERED` fails closed when `e3` decodes to `0` and the
third key is not `0`. -/
theorem IVS_LAYERED_body_of_dec_zero {R σ : Type} [Zero R] (k1 k2 k3 k4 : Nat) (hk3 : k3 ≠ 0)
    (patch : multi_enc2 64 k3 k4 → multi_enc2 64 k3 k4)
    (hp : (patch (multi_enc2.ctor 64 k3 k4 k3)).dec = 0)
    (mem : Nat → Unit → σ → R × σ) (a : Nat) (args : Unit) (s : σ) :
    IVS_LAYERED.body k1 k2 k3 k4 patch mem a args s = (0, s) := by
  simp [IVS_LAYERED.body, hp, Ne.symm hk3]

/-! ## The claims -/

/-- Claim C1. Single-key round trip: for an unsigned type of width `w`, every
key and every value `v` of the type, `enc_val<T,Key>(v)` stores `v XOR Key`
truncated to the type, and `dec()` gives back `v`. -/
theorem enc_val_round_trip (w Key v : Nat) (hv : v < 2 ^ w) :
    (enc_val.ctor w Key v).data = (v ^^^ Key) % 2 ^ w ∧
      (enc_val.ctor w Key v).dec = v :=
  ⟨rfl, xor_trunc_cancel w Key v hv⟩

/-- Witness of C1 at the 8-bit value `0xA5` under a 64-bit key. -/
theorem enc_val_round_trip_witness :
    (0xA5 : Nat) < 2 ^ 8 ∧
      ((enc_val.ctor 8 0xff51afd7ed558ccd 0xA5).data = (0xA5 ^^^ 0xff51afd7ed558ccd) % 2 ^ 8 ∧
        (enc_val.ctor 8 0xff51afd7ed558ccd 0xA5).dec = 0xA5) :=
  ⟨by decide, enc_val_round_trip 8 0xff51afd7ed558ccd 0xA5 (by decide)⟩

/-- Claim C2. Two-key redundant encoder, for an unsigned type of width `w`:
as constructed from `v` it decodes to `v`; after exactly one raw copy, `d1` or
`d2`, is replaced by a value of the type other than the one stored, `dec()`
returns the zero value. The keys may be any words, distinct or not. -/
theorem multi_enc2_round_trip_and_detect (w K1 K2 v : Nat) (hv : v < 2 ^ w) :
    (multi_enc2.ctor w K1 K2 v).dec = v ∧
      (∀ x, x < 2 ^ w → x ≠ (multi_enc2.ctor w K1 K2 v).d1 →
        ((multi_enc2.ctor w K1 K2 v).set_d1 x).dec = 0) ∧
      (∀ x, x < 2 ^ w → x ≠ (multi_enc2.ctor w K1 K2 v).d2 →
        ((multi_enc2.ctor w K1 K2 v).set_d2 x).dec = 0) :=
  ⟨multi_enc2_dec_ctor w K1 K2 v hv,
    fun x hx hne => multi_enc2_dec_set_d1 w K1 K2 v x hv hx hne,
    fun x hx hne => multi_enc2_dec_set_d2 w K1 K2 v x hv hx hne⟩

/-- Witness of C2: the 16-bit value `0xBEEF` under the keys of ordinals 1 and 2,
intact, with `d1` overwritten by `7`, and with `d2` overwritten by `7`. -/
theorem multi_enc2_round_trip_and_detect_witness :
    (multi_enc2.ctor 16 (ct_rnd.value 1) (ct_rnd.value 2) 0xBEEF).dec = 0xBEEF ∧
      ((multi_enc2.ctor 16 (ct_rnd.value 1) (ct_rnd.value 2) 0xBEEF).set_d1 7).dec = 0 ∧
      ((multi_enc2.ctor 16 (ct_rnd.value 1) (ct_rnd.value 2) 0xBEEF).set_d2 7).dec = 0 :=
  have h := multi_enc2_round_trip_and_detect 16 (ct_rnd.value 1) (ct_rnd.value 2) 0xBEEF
    (by decide)
  ⟨h.1, h.2.1 7 (by decide) (by decide), h.2.2 7 (by decide) (by decide)⟩

/-- Claim C3. Dual pointer guard: as constructed from the address `a` it
resolves to `a`; after exactly one raw slot, `p1` or `p2`, is changed to a
different word, `get()` returns the null address. The keys may be any words,
distinct or not. -/
theorem dual_guard_resolve_and_detect (Key1 Key2 a : Nat) :
    (dual_guard.ctor Key1 Key2 a).get = a ∧
      (∀ x, x ≠ (dual_guard.ctor Key1 Key2 a).p1 →
        ((dual_guard.ctor Key1 Key2 a).set_p1 x).get = 0) ∧
      (∀ x, x ≠ (dual_guard.ctor Key1 Key2 a).p2 →
        ((dual_guard.ctor Key1 Key2 a).set_p2 x).get = 0) :=
  ⟨dual_guard_get_ctor Key1 Key2 a,
    fun x hne => dual_guard_get_set_p1 Key1 Key2 a x hne,
    fun x hne => dual_guard_get_set_p2 Key1 Key2 a x hne⟩

/-- Witness of C3: the address of `add` under the keys of ordinals 7 and 8,
intact, with `p1` overwritten by the address of `multiply`, and with `p2`
overwritten by it. -/
theorem dual_guard_resolve_and_detect_witness :
    (dual_guard.ctor (ct_rnd.value 7) (ct_rnd.value 8) add_addr).get = add_addr ∧
      ((dual_guard.ctor (ct_rnd.value 7) (ct_rnd.value 8) add_addr).set_p1 multiply_addr).get = 0 ∧
      ((dual_guard.ctor (ct_rnd.value 7) (ct_rnd.value 8) add_addr).set_p2 multiply_addr).get = 0 :=
  have h := dual_guard_resolve_and_detect (ct_rnd.value 7) (ct_rnd.value 8) add_addr
  ⟨h.1, h.2.1 multiply_addr (by decide), h.2.2 multiply_addr (by decide)⟩

/-- Claim C4. Invocation wrapper: `call_ctx<R,F>(f, c).invoke(args)` has two
outcomes. If `c != 0` it is one call of `f` with `args`: result and final state
are those of `f args`, and a call counter attached to `f` goes up by one. If
`c == 0` it returns the zero value `R{}` in an unchanged state, and the call
counter stays as it was. -/
theorem call_ctx_invoke_outcomes {R A σ : Type} [Zero R] (f : A → σ → R × σ) (c : Nat)
    (args : A) (s : σ) (n : Nat) :
    (c ≠ 0 →
      (make_ctx R f c).invoke args s = f args s ∧
        ((make_ctx R (counted f) c).invoke args (s, n)).2.2 = n + 1) ∧
      (c = 0 →
        (make_ctx R f c).invoke args s = (0, s) ∧
          ((make_ctx R (counted f) c).invoke args (s, n)).2 = (s, n)) := by
  constructor
  · intro hc
    simp [make_ctx, call_ctx.invoke, counted, hc]
  · intro hc
    simp [make_ctx, call_ctx.invoke, hc]

/-- Witness of C4: `add` wrapped with the check scalar `7`, and with the check
scalar `0`, called with `(10, 5)`. -/
theorem call_ctx_invoke_outcomes_witness :
    ((make_ctx Int (pure2 add) 7).invoke (10, 5) () = pure2 add (10, 5) () ∧
        ((make_ctx Int (counted (pure2 add)) 7).invoke (10, 5) ((), 0)).2.2 = 0 + 1) ∧
      ((make_ctx Int (pure2 add) 0).invoke (10, 5) () = (0, ()) ∧
        ((make_ctx Int (counted (pure2 add)) 0).invoke (10, 5) ((), 0)).2 = ((), 0)) :=
  ⟨(call_ctx_invoke_outcomes (pure2 add) 7 (10, 5) () 0).1 (by decide),
    (call_ctx_invoke_outcomes (pure2 add) 0 (10, 5) () 0).2 rfl⟩

/-- Claim C5, evaluated at the demonstration program's call. The key of ordinal
`0` is `0`, so `IVS_CALL(int, add, x, y)` expanded at `__COUNTER__ == 0` returns
`0` and leaves the call counter of `add` untouched, for all `x` and `y`; with
`(10, 5)` it returns `0` where `add(10, 5)` is `15`. -/
theorem IVS_CALL_ordinal_zero_returns_zero :
    (∀ (x y : Int) (n : Nat),
        IVS_CALL 0 (counted (pure2 add)) (x, y) ((), n) = (0, ((), n))) ∧
      IVS_CALL 0 (pure2 add) (10, 5) () = (0, ()) ∧ add 10 5 = 15 :=
  ⟨fun x y n => IVS_CALL_zero (counted (pure2 add)) (x, y) ((), n),
    IVS_CALL_zero (pure2 add) (10, 5) (), by decide⟩

/-- Claim C6, evaluated at ordinals 12 and 13 (those of the demonstration
program's `IVS_STEALTH`), on a nullary target. With `d1`, or `d2`, of the
address encoder overwritten by `5`, a word other than the one stored,
`IVS_STEALTH` does dispatch: the log holds one call, to the null address `0`,
and the value returned is what that call gives, not `ret{}` from the protocol. -/
theorem IVS_STEALTH_tampered_dispatches_null :
    (5 : Nat) ≠ (multi_enc2.ctor 64 (ct_rnd.value 12) (ct_rnd.value 13) target_addr).d1 ∧
      (5 : Nat) ≠ (multi_enc2.ctor 64 (ct_rnd.value 12) (ct_rnd.value 13) target_addr).d2 ∧
      IVS_STEALTH 12 (multi_enc2.set_d1 5) (logged nullary_mem) target_addr () ((), [])
        = (-1, ((), [0])) ∧
      IVS_STEALTH 12 (multi_enc2.set_d2 5) (logged nullary_mem) target_addr () ((), [])
        = (-1, ((), [0])) := by
  refine ⟨by decide, by decide, ?_, ?_⟩
  · unfold IVS_STEALTH
    rw [IVS_STEALTH_body_set_d1 _ _ _ _ (by decide) (by decide) (by decide)]
    decide
  · unfold IVS_STEALTH
    rw [IVS_STEALTH_body_set_d2 _ _ _ _ (by decide) (by decide) (by decide)]
    decide

/-- Protected, Indirect, Fortified, Stealth and Ultimate on a nullary target,
untampered: for all 64-bit keys (equal or zero keys included), every non-null
64-bit target address `a`, every code memory and state, the lambda is one call
through `a`: its result and final state are those of `mem a ()`. The loop of
Stealth leaves `0` and the loop of Ultimate leaves `10`. -/
theorem protocols_untampered_dispatch {R σ : Type} [Zero R] (k1 k2 k3 k4 k5 a : Nat)
    (hk2 : k2 < 2 ^ 64) (hk4 : k4 < 2 ^ 64) (ha : a < 2 ^ 64) (ha0 : a ≠ 0)
    (mem : Nat → Unit → σ → R × σ) (args : Unit) (s : σ) :
    IVS_PROTECTED.body k1 k2 mem a args s = mem a args s ∧
      IVS_INDIRECT.body k1 mem a args s = mem a args s ∧
      IVS_FORTIFIED.body k1 k2 mem a args s = mem a args s ∧
      IVS_STEALTH.body k1 k2 id mem a args s = mem a args s ∧
      IVS_ULTIMATE.body k1 k2 k3 k4 k5 id id mem a args s = mem a args s ∧
      IVS_STEALTH.check = 0 ∧ IVS_ULTIMATE.anti_opt = 10 := by
  refine ⟨?_, ?_, ?_, ?_, ?_, IVS_STEALTH_check_eq, IVS_ULTIMATE_anti_opt_eq⟩
  · simp [IVS_PROTECTED.body, ptr_guard_get_ctor, enc_val_dec_ctor 64 k2 k2 hk2]
  · simp [IVS_INDIRECT.body, Nat.xor_cancel_right]
  · simp [IVS_FORTIFIED.body, dual_guard_get_ctor, ha0]
  · simp [IVS_STEALTH.body, IVS_STEALTH_check_eq, multi_enc2_dec_ctor 64 k1 k2 a ha]
  · simp [IVS_ULTIMATE.body, IVS_ULTIMATE_anti_opt_eq, multi_enc2_dec_ctor 64 k4 k5 k4 hk4,
      multi_enc3_dec_ctor 64 k1 k2 k3 a ha, ha0, Nat.xor_cancel_right]

/-- The five lambdas on the nullary target of `nullary_mem`, with a dispatch
log, under the keys of ordinals 1 to 5. -/
theorem protocols_untampered_dispatch_example :
    IVS_PROTECTED.body (ct_rnd.value 1) (ct_rnd.value 2) (logged nullary_mem) target_addr ()
        ((), []) = (42, ((), [target_addr])) ∧
      IVS_INDIRECT.body (ct_rnd.value 1) (logged nullary_mem) target_addr () ((), [])
        = (42, ((), [target_addr])) ∧
      IVS_FORTIFIED.body (ct_rnd.value 1) (ct_rnd.value 2) (logged nullary_mem) target_addr ()
        ((), []) = (42, ((), [target_addr])) ∧
      IVS_STEALTH.body (ct_rnd.value 1) (ct_rnd.value 2) id (logged nullary_mem) target_addr ()
        ((), []) = (42, ((), [target_addr])) ∧
      IVS_ULTIMATE.body (ct_rnd.value 1) (ct_rnd.value 2) (ct_rnd.value 3) (ct_rnd.value 4)
        (ct_rnd.value 5) id id (logged nullary_mem) target_addr () ((), [])
        = (42, ((), [target_addr])) := by
  have h := protocols_untampered_dispatch (ct_rnd.value 1) (ct_rnd.value 2) (ct_rnd.value 3)
    (ct_rnd.value 4) (ct_rnd.value 5) target_addr (ct_rnd_value_lt 2) (ct_rnd_value_lt 4)
    (by decide) (by decide) (logged (nullary_mem)) () (((), []) : Unit × List Nat)
  have hm : logged nullary_mem target_addr () (((), []) : Unit × List Nat)
      = (42, ((), [target_addr])) := by decide
  rw [hm] at h
  exact ⟨h.1, h.2.1, h.2.2.1, h.2.2.2.1, h.2.2.2.2.1⟩

/-- Secure, Armored and Layered on a nullary target, untampered, with keys
from consecutive ordinals starting at `c`, `c + 3 < 2^64`: for every non-null
target address `a`, every code memory and state, each protocol passes all its
checks and is one call through `a`: its result and final state are those of
`mem a ()`. -/
theorem secure_armored_layered_untampered {R σ : Type} [Zero R] (c a : Nat)
    (hc : c + 3 < 2 ^ 64) (ha0 : a ≠ 0)
    (mem : Nat → Unit → σ → R × σ) (args : Unit) (s : σ) :
    IVS_SECURE c mem a args s = mem a args s ∧
      IVS_ARMORED c id mem a args s = mem a args s ∧
      IVS_LAYERED c id mem a args s = mem a args s := by
  have hk3 : ct_rnd.value (c + 2) ≠ 0 := ct_rnd_value_ne_zero (c + 2) (by omega) (by omega)
  have hk4 : ct_rnd.value (c + 3) ≠ 0 := ct_rnd_value_ne_zero (c + 3) (by omega) (by omega)
  refine ⟨?_, ?_, ?_⟩
  · simp [IVS_SECURE, IVS_SECURE.body, ptr_guard_get_ctor, hk3,
      enc_val_dec_ctor 64 _ _ (ct_rnd_value_lt c),
      enc_val_dec_ctor 64 _ _ (ct_rnd_value_lt (c + 1))]
  · simp [IVS_ARMORED, IVS_ARMORED.body, ptr_guard_get_ctor, hk3,
      multi_enc3_dec_ctor 64 _ _ _ _ (ct_rnd_value_lt c)]
  · simp [IVS_LAYERED, IVS_LAYERED.body, dual_guard_get_ctor, hk4, ha0,
      enc_val_dec_ctor 64 _ _ (ct_rnd_value_lt c),
      enc_val_dec_ctor 64 _ _ (ct_rnd_value_lt (c + 1)),
      multi_enc2_dec_ctor 64 _ _ _ (ct_rnd_value_lt (c + 2))]

/-- Secure, Armored and Layered at the ordinals they have in the demonstration
program (3, 9 and 14), on the nullary target of `nullary_mem`, with a dispatch
log. -/
theorem secure_armored_layered_untampered_example :
    IVS_SECURE 3 (logged nullary_mem) target_addr () ((), []) = (42, ((), [target_addr])) ∧
      IVS_ARMORED 9 id (logged nullary_mem) target_addr () ((), [])
        = (42, ((), [target_addr])) ∧
      IVS_LAYERED 14 id (logged nullary_mem) target_addr () ((), [])
        = (42, ((), [target_addr])) := by
  have hm : logged nullary_mem target_addr () (((), []) : Unit × List Nat)
      = (42, ((), [target_addr])) := by decide
  have h3 := secure_armored_layered_untampered 3 target_addr (by decide) (by decide)
    (logged (nullary_mem)) () (((), []) : Unit × List Nat)
  have h9 := secure_armored_layered_untampered 9 target_addr (by decide) (by decide)
    (logged (nullary_mem)) () (((), []) : Unit × List Nat)
  have h14 := secure_armored_layered_untampered 14 target_addr (by decide) (by decide)
    (logged (nullary_mem)) () (((), []) : Unit × List Nat)
  rw [hm] at h3 h9 h14
  exact ⟨h3.1, h9.2.1, h14.2.2⟩

/-- Claim C9, evaluated at starting ordinal `0`, on a nullary target. The key
of ordinal `0` is `0`, the value `guard.dec()` returns on a mismatch; so with
`d1`, `d2` or `d3` of `guard` overwritten by `5`, a word other than the one
stored, `IVS_ARMORED` still calls the target: the log holds one call, to the
target, and the result is the target's, `42`. -/
theorem IVS_ARMORED_ordinal_zero_tamper_undetected :
    (5 : Nat) ≠ (multi_enc3.ctor 64 (ct_rnd.value 0) (ct_rnd.value 1) (ct_rnd.value 2)
        (ct_rnd.value 0)).d1 ∧
      (5 : Nat) ≠ (multi_enc3.ctor 64 (ct_rnd.value 0) (ct_rnd.value 1) (ct_rnd.value 2)
        (ct_rnd.value 0)).d2 ∧
      (5 : Nat) ≠ (multi_enc3.ctor 64 (ct_rnd.value 0) (ct_rnd.value 1) (ct_rnd.value 2)
        (ct_rnd.value 0)).d3 ∧
      IVS_ARMORED 0 (multi_enc3.set_d1 5) (logged nullary_mem) target_addr () ((), [])
        = (42, ((), [target_addr])) ∧
      IVS_ARMORED 0 (multi_enc3.set_d2 5) (logged nullary_mem) target_addr () ((), [])
        = (42, ((), [target_addr])) ∧
      IVS_ARMORED 0 (multi_enc3.set_d3 5) (logged nullary_mem) target_addr () ((), [])
        = (42, ((), [target_addr])) := by
  refine ⟨by decide, by decide, by decide, by decide, by decide, by decide⟩

/-- Claim C10. Ultimate and Layered fail closed, with keys from consecutive
ordinals starting at `c`, `c + 4 < 2^64`, and a 64-bit target address `a`:
when one raw copy of `ptr_enc` (`d1`, `d2`, `d3`) or of `val_enc` (`d1`, `d2`)
in `IVS_ULTIMATE`, or of `e3` (`d1`, `d2`) in `IVS_LAYERED`, is overwritten by a
64-bit word `x` other than the one stored, the protocol returns the zero value
in an unchanged state: no call is made, for any code memory. The target
is nullary, as the macros require. -/
theorem ultimate_layered_fail_closed {R σ : Type} [Zero R] (c a x : Nat)
    (hc : c + 4 < 2 ^ 64) (ha : a < 2 ^ 64) (hx : x < 2 ^ 64)
    (mem : Nat → Unit → σ → R × σ) (args : Unit) (s : σ) :
    (x ≠ (multi_enc3.ctor 64 (ct_rnd.value c) (ct_rnd.value (c + 1)) (ct_rnd.value (c + 2))
          a).d1 →
        IVS_ULTIMATE c (multi_enc3.set_d1 x) id mem a args s = (0, s)) ∧
      (x ≠ (multi_enc3.ctor 64 (ct_rnd.value c) (ct_rnd.value (c + 1)) (ct_rnd.value (c + 2))
            a).d2 →
          IVS_ULTIMATE c (multi_enc3.set_d2 x) id mem a args s = (0, s)) ∧
      (x ≠ (multi_enc3.ctor 64 (ct_rnd.value c) (ct_rnd.value (c + 1)) (ct_rnd.value (c + 2))
            a).d3 →
          IVS_ULTIMATE c (multi_enc3.set_d3 x) id mem a args s = (0, s)) ∧
      (x ≠ (multi_enc2.ctor 64 (ct_rnd.value (c + 3)) (ct_rnd.value (c + 4))
            (ct_rnd.value (c + 3))).d1 →
          IVS_ULTIMATE c id (multi_enc2.set_d1 x) mem a args s = (0, s)) ∧
      (x ≠ (multi_enc2.ctor 64 (ct_rnd.value (c + 3)) (ct_rnd.value (c + 4))
            (ct_rnd.value (c + 3))).d2 →
          IVS_ULTIMATE c id (multi_enc2.set_d2 x) mem a args s = (0, s)) ∧
      (x ≠ (multi_enc2.ctor 64 (ct_rnd.value (c + 2)) (ct_rnd.value (c + 3))
            (ct_rnd.value (c + 2))).d1 →
          IVS_LAYERED c (multi_enc2.set_d1 x) mem a args s = (0, s)) ∧
      (x ≠ (multi_enc2.ctor 64 (ct_rnd.value (c + 2)) (ct_rnd.value (c + 3))
            (ct_rnd.value (c + 2))).d2 →
          IVS_LAYERED c (multi_enc2.set_d2 x) mem a args s = (0, s)) := by
  have hk3 : ct_rnd.value (c + 2) ≠ 0 := ct_rnd_value_ne_zero (c + 2) (by omega) (by omega)
  have hk4 : ct_rnd.value (c + 3) ≠ 0 := ct_rnd_value_ne_zero (c + 3) (by omega) (by omega)
  refine ⟨fun hne => ?_, fun hne => ?_, fun hne => ?_, fun hne => ?_, fun hne => ?_,
    fun hne => ?_, fun hne => ?_⟩
  · exact IVS_ULTIMATE_body_of_ptr_zero _ _ _ _ _ _ _ mem a args s
      (multi_enc3_dec_set_d1 64 _ _ _ a x ha hx hne)
  · exact IVS_ULTIMATE_body_of_ptr_zero _ _ _ _ _ _ _ mem a args s
      (multi_enc3_dec_set_d2 64 _ _ _ a x ha hx hne)
  · exact IVS_ULTIMATE_body_of_ptr_zero _ _ _ _ _ _ _ mem a args s
      (multi_enc3_dec_set_d3 64 _ _ _ a x ha hx hne)
  · exact IVS_ULTIMATE_body_of_val_zero _ _ _ _ _ hk4 _ _
      (multi_enc2_dec_set_d1 64 _ _ _ x (ct_rnd_value_lt _) hx hne) mem a args s
  · exact IVS_ULTIMATE_body_of_val_zero _ _ _ _ _ hk4 _ _
      (multi_enc2_dec_set_d2 64 _ _ _ x (ct_rnd_value_lt _) hx hne) mem a args s
  · exact IVS_LAYERED_body_of_dec_zero _ _ _ _ hk3 _
      (multi_enc2_dec_set_d1 64 _ _ _ x (ct_rnd_value_lt _) hx hne) mem a args s
  · exact IVS_LAYERED_body_of_dec_zero _ _ _ _ hk3 _
      (multi_enc2_dec_set_d2 64 _ _ _ x (ct_rnd_value_lt _) hx hne) mem a args s

/-- Witness of C10: starting ordinal `0`, the nullary target of `nullary_mem`
with a dispatch log, each raw copy in turn overwritten by `5`. -/
theorem ultimate_layered_fail_closed_witness :
    IVS_ULTIMATE 0 (multi_enc3.set_d1 5) id (logged nullary_mem) target_addr () ((), [])
        = (0, ((), [])) ∧
      IVS_ULTIMATE 0 (multi_enc3.set_d2 5) id (logged nullary_mem) target_addr () ((), [])
        = (0, ((), [])) ∧
      IVS_ULTIMATE 0 (multi_enc3.set_d3 5) id (logged nullary_mem) target_addr () ((), [])
        = (0, ((), [])) ∧
      IVS_ULTIMATE 0 id (multi_enc2.set_d1 5) (logged nullary_mem) target_addr () ((), [])
        = (0, ((), [])) ∧
      IVS_ULTIMATE 0 id (multi_enc2.set_d2 5) (logged nullary_mem) target_addr () ((), [])
        = (0, ((), [])) ∧
      IVS_LAYERED 0 (multi_enc2.set_d1 5) (logged nullary_mem) target_addr () ((), [])
        = (0, ((), [])) ∧
      IVS_LAYERED 0 (multi_enc2.set_d2 5) (logged nullary_mem) target_addr () ((), [])
        = (0, ((), [])) :=
  have h := ultimate_layered_fail_closed 0 target_addr 5 (by decide) (by decide) (by decide)
    (logged (nullary_mem)) () (((), []) : Unit × List Nat)
  ⟨h.1 (by decide), h.2.1 (by decide), h.2.2.1 (by decide), h.2.2.2.1 (by decide),
    h.2.2.2.2.1 (by decide), h.2.2.2.2.2.1 (by decide), h.2.2.2.2.2.2 (by decide)⟩

/-! ## Injectivity of the key derivation -/

/-- On 64-bit words the step `x ^= x >> 33` undoes itself. -/
theorem xorshift33_xorshift33 (x : Nat) (hx : x < 2 ^ 64) : xorshift33 (xorshift33 x) = x := by
  unfold xorshift33
  apply Nat.eq_of_testBit_eq
  intro i
  have hle : 2 ^ 64 ≤ 2 ^ (33 + (33 + i)) := Nat.pow_le_pow_right (by decide) (by omega)
  have hhi : x.testBit (33 + (33 + i)) = false :=
    Nat.testBit_lt_two_pow (Nat.lt_of_lt_of_le hx hle)
  simp only [Nat.testBit_xor, Nat.testBit_shiftRight, hhi]
  cases x.testBit i <;> cases x.testBit (33 + i) <;> rfl

theorem xorshift33_inj (x y : Nat) (hx : x < 2 ^ 64) (hy : y < 2 ^ 64)
    (h : xorshift33 x = xorshift33 y) : x = y := by
  rw [← xorshift33_xorshift33 x hx, ← xorshift33_xorshift33 y hy, h]

theorem mul64_inj (c x y : Nat) (hc : Nat.Coprime (2 ^ 64) c) (hx : x < 2 ^ 64)
    (hy : y < 2 ^ 64) (h : mul64 c x = mul64 c y) : x = y := by
  unfold mul64 at h
  have h1 : x * c ≡ y * c [MOD 2 ^ 64] := h
  have h2 : x ≡ y [MOD 2 ^ 64] := Nat.ModEq.cancel_right_of_coprime hc h1
  exact Nat.ModEq.eq_of_lt_of_lt h2 hx hy

theorem ct_rnd_mix_inj (x y : Nat) (hx : x < 2 ^ 64) (hy : y < 2 ^ 64)
    (h : ct_rnd.mix x = ct_rnd.mix y) : x = y := by
  rw [ct_rnd_mix_eq, ct_rnd_mix_eq] at h
  have h4 := xorshift33_inj _ _ (mul64_lt _ _) (mul64_lt _ _) h
  have h3 := mul64_inj _ _ _ (by norm_num) (xorshift33_lt _ (mul64_lt _ _))
    (xorshift33_lt _ (mul64_lt _ _)) h4
  have h2 := xorshift33_inj _ _ (mul64_lt _ _) (mul64_lt _ _) h3
  have h1 := mul64_inj _ _ _ (by norm_num) (xorshift33_lt _ hx) (xorshift33_lt _ hy) h2
  exact xorshift33_inj _ _ hx hy h1

/-- Two ordinals below `2^64` with one key are one ordinal. -/
theorem ct_rnd_value_inj (n m : Nat) (hn : n < 2 ^ 64) (hm : m < 2 ^ 64)
    (h : ct_rnd.value n = ct_rnd.value m) : n = m := by
  have hln : (n * 0x9e3779b97f4a7c15) % 2 ^ 64 < 2 ^ 64 := Nat.mod_lt _ (by norm_num)
  have hlm : (m * 0x9e3779b97f4a7c15) % 2 ^ 64 < 2 ^ 64 := Nat.mod_lt _ (by norm_num)
  have h1 : (n * 0x9e3779b97f4a7c15) % 2 ^ 64 = (m * 0x9e3779b97f4a7c15) % 2 ^ 64 :=
    ct_rnd_mix_inj _ _ hln hlm h
  have hc : Nat.Coprime (2 ^ 64) 0x9e3779b97f4a7c15 := by norm_num
  exact mul64_inj 0x9e3779b97f4a7c15 n m hc hn hm h1

/-- Every 64-bit word is the key of an ordinal below `2^64`. -/
theorem ct_rnd_value_surj (y : Nat) (hy : y < 2 ^ 64) :
    ∃ n, n < 2 ^ 64 ∧ ct_rnd.value n = y := by
  let f : Fin (2 ^ 64) → Fin (2 ^ 64) := fun n => ⟨ct_rnd.value n.val, ct_rnd_value_lt n.val⟩
  have hinj : Function.Injective f := by
    intro a b hab
    apply Fin.ext
    exact ct_rnd_value_inj a.val b.val a.isLt b.isLt (congrArg Fin.val hab)
  obtain ⟨n, hn⟩ := Finite.surjective_of_injective hinj ⟨y, hy⟩
  exact ⟨n.val, n.isLt, congrArg Fin.val hn⟩

/-! ## Lemmas on arbitrary states of the encoders -/

/-- A `w`-bit word decodes to `v` exactly when it is the copy stored for `v`. -/
theorem xor_trunc_eq_iff (w K v x : Nat) (hv : v < 2 ^ w) (hx : x < 2 ^ w) :
    (x ^^^ K) % 2 ^ w = v ↔ x = (v ^^^ K) % 2 ^ w := by
  constructor
  · intro h
    by_contra hne
    exact xor_trunc_ne w K v x hv hx hne h
  · intro h
    rw [h]
    exact xor_trunc_cancel w K v hv

/-- A two-key encoder whose decodes differ decodes to `0`. -/
theorem multi_enc2_dec_of_ne (w K1 K2 x1 x2 : Nat)
    (hne : (x1 ^^^ K1) % 2 ^ w ≠ (x2 ^^^ K2) % 2 ^ w) :
    (multi_enc2.mk x1 x2 : multi_enc2 w K1 K2).dec = 0 := by
  simp [multi_enc2.dec, hne]

/-- A two-key encoder whose decodes are equal decodes to their common value. -/
theorem multi_enc2_dec_of_eq (w K1 K2 x1 x2 : Nat)
    (heq : (x1 ^^^ K1) % 2 ^ w = (x2 ^^^ K2) % 2 ^ w) :
    (multi_enc2.mk x1 x2 : multi_enc2 w K1 K2).dec = (x1 ^^^ K1) % 2 ^ w := by
  simp [multi_enc2.dec, heq]

/-- A three-key encoder whose decodes are not all equal decodes to `0`. -/
theorem multi_enc3_dec_of_ne (w K1 K2 K3 x1 x2 x3 : Nat)
    (hne : ¬ ((x1 ^^^ K1) % 2 ^ w = (x2 ^^^ K2) % 2 ^ w ∧
      (x2 ^^^ K2) % 2 ^ w = (x3 ^^^ K3) % 2 ^ w)) :
    (multi_enc3.mk x1 x2 x3 : multi_enc3 w K1 K2 K3).dec = 0 := by
  simp only [multi_enc3.dec]
  rw [if_pos]
  by_contra h
  exact hne ⟨by_contra fun h1 => h (Or.inl h1), by_contra fun h2 => h (Or.inr h2)⟩

/-- A three-key encoder whose decodes are all equal decodes to their common value. -/
theorem multi_enc3_dec_of_eq (w K1 K2 K3 x1 x2 x3 : Nat)
    (heq : (x1 ^^^ K1) % 2 ^ w = (x2 ^^^ K2) % 2 ^ w ∧
      (x2 ^^^ K2) % 2 ^ w = (x3 ^^^ K3) % 2 ^ w) :
    (multi_enc3.mk x1 x2 x3 : multi_enc3 w K1 K2 K3).dec = (x1 ^^^ K1) % 2 ^ w := by
  simp only [multi_enc3.dec]
  rw [if_neg]
  rintro (h | h)
  · exact h heq.1
  · exact h heq.2

/-- A `w`-bit word is the copy stored for the value it decodes to. -/
theorem xor_trunc_stored (w K x : Nat) (hx : x < 2 ^ w) :
    x = (((x ^^^ K) % 2 ^ w) ^^^ K) % 2 ^ w :=
  (xor_trunc_eq_iff w K ((x ^^^ K) % 2 ^ w) x (Nat.mod_lt _ (Nat.two_pow_pos w)) hx).mp rfl

/-- A two-key state with equal decodes is the state the constructor builds
from the common decode. -/
theorem multi_enc2_eq_ctor_of_eq (w K1 K2 x1 x2 : Nat) (h1 : x1 < 2 ^ w) (h2 : x2 < 2 ^ w)
    (heq : (x1 ^^^ K1) % 2 ^ w = (x2 ^^^ K2) % 2 ^ w) :
    (multi_enc2.mk x1 x2 : multi_enc2 w K1 K2) = multi_enc2.ctor w K1 K2 ((x1 ^^^ K1) % 2 ^ w) := by
  have e1 := xor_trunc_stored w K1 x1 h1
  have e2 := xor_trunc_stored w K2 x2 h2
  rw [← heq] at e2
  simp only [multi_enc2.ctor]
  rw [← e1, ← e2]

/-- A three-key state with equal decodes is the state the constructor builds
from the common decode. -/
theorem multi_enc3_eq_ctor_of_eq (w K1 K2 K3 x1 x2 x3 : Nat) (h1 : x1 < 2 ^ w)
    (h2 : x2 < 2 ^ w) (h3 : x3 < 2 ^ w)
    (heq : (x1 ^^^ K1) % 2 ^ w = (x2 ^^^ K2) % 2 ^ w ∧
      (x2 ^^^ K2) % 2 ^ w = (x3 ^^^ K3) % 2 ^ w) :
    (multi_enc3.mk x1 x2 x3 : multi_enc3 w K1 K2 K3) =
      multi_enc3.ctor w K1 K2 K3 ((x1 ^^^ K1) % 2 ^ w) := by
  have e1 := xor_trunc_stored w K1 x1 h1
  have e2 := xor_trunc_stored w K2 x2 h2
  have e3 := xor_trunc_stored w K3 x3 h3
  rw [← heq.2, ← heq.1] at e3
  rw [← heq.1] at e2
  simp only [multi_enc3.ctor]
  rw [← e1, ← e2, ← e3]

/-- A dual guard with one word in both slots resolves exactly when its keys are equal. -/
theorem dual_guard_get_same_word (Key1 Key2 w : Nat) :
    (dual_guard.mk w w : dual_guard Key1 Key2).get = if Key1 = Key2 then w ^^^ Key1 else 0 := by
  simp only [dual_guard.get]
  by_cases hk : Key1 = Key2
  · simp [hk]
  · have hne : w ^^^ Key1 ≠ w ^^^ Key2 := fun h => hk (Nat.xor_right_inj.mp h)
    simp [hk, hne]

/-! ## The claims on the primitives and the key derivation -/

/-- Claim C11. Three-key redundant encoder, for an unsigned type of width `w`:
as constructed from `v` each of the three copies decodes to `v` and `dec()`
returns `v`; after exactly one of `d1`, `d2`, `d3` is changed to a different
value of the type, the other two still decoding to `v`, `dec()` returns the
zero value: unanimity, not majority. -/
theorem multi_enc3_strict_unanimity (w K1 K2 K3 v : Nat) (hv : v < 2 ^ w) :
    (multi_enc3.ctor w K1 K2 K3 v).dec = v ∧
      (((multi_enc3.ctor w K1 K2 K3 v).d1 ^^^ K1) % 2 ^ w = v ∧
        ((multi_enc3.ctor w K1 K2 K3 v).d2 ^^^ K2) % 2 ^ w = v ∧
        ((multi_enc3.ctor w K1 K2 K3 v).d3 ^^^ K3) % 2 ^ w = v) ∧
      (∀ x, x < 2 ^ w → x ≠ (multi_enc3.ctor w K1 K2 K3 v).d1 →
        ((multi_enc3.ctor w K1 K2 K3 v).set_d1 x).dec = 0) ∧
      (∀ x, x < 2 ^ w → x ≠ (multi_enc3.ctor w K1 K2 K3 v).d2 →
        ((multi_enc3.ctor w K1 K2 K3 v).set_d2 x).dec = 0) ∧
      (∀ x, x < 2 ^ w → x ≠ (multi_enc3.ctor w K1 K2 K3 v).d3 →
        ((multi_enc3.ctor w K1 K2 K3 v).set_d3 x).dec = 0) :=
  ⟨multi_enc3_dec_ctor w K1 K2 K3 v hv,
    ⟨xor_trunc_cancel w K1 v hv, xor_trunc_cancel w K2 v hv, xor_trunc_cancel w K3 v hv⟩,
    fun x hx hne => multi_enc3_dec_set_d1 w K1 K2 K3 v x hv hx hne,
    fun x hx hne => multi_enc3_dec_set_d2 w K1 K2 K3 v x hv hx hne,
    fun x hx hne => multi_enc3_dec_set_d3 w K1 K2 K3 v x hv hx hne⟩

/-- Witness of C11: the 16-bit value `0xBEEF` under the keys of ordinals 1, 2
and 3, intact, and with each copy in turn overwritten by `7`. -/
theorem multi_enc3_strict_unanimity_witness :
    (multi_enc3.ctor 16 (ct_rnd.value 1) (ct_rnd.value 2) (ct_rnd.value 3) 0xBEEF).dec = 0xBEEF ∧
      ((multi_enc3.ctor 16 (ct_rnd.value 1) (ct_rnd.value 2) (ct_rnd.value 3) 0xBEEF).set_d1
        7).dec = 0 ∧
      ((multi_enc3.ctor 16 (ct_rnd.value 1) (ct_rnd.value 2) (ct_rnd.value 3) 0xBEEF).set_d2
        7).dec = 0 ∧
      ((multi_enc3.ctor 16 (ct_rnd.value 1) (ct_rnd.value 2) (ct_rnd.value 3) 0xBEEF).set_d3
        7).dec = 0 :=
  have h := multi_enc3_strict_unanimity 16 (ct_rnd.value 1) (ct_rnd.value 2) (ct_rnd.value 3)
    0xBEEF (by decide)
  ⟨h.1, h.2.2.1 7 (by decide) (by decide), h.2.2.2.1 7 (by decide) (by decide),
    h.2.2.2.2 7 (by decide) (by decide)⟩

/-- Counterexample to C12 as stated. An encoder constructed from `1` whose
copies are all overwritten with the copies stored for `2`: every copy differs
from what the constructor stored, the decodes are mutually equal, and `dec()`
returns `2`, neither the zero value nor the original `1`. Two-key and
three-key encoder, 64-bit type, keys of ordinals 1, 2 and 3. -/
theorem multi_enc_all_copies_overwritten :
    ((2 ^^^ ct_rnd.value 1) % 2 ^ 64 ≠
        (multi_enc2.ctor 64 (ct_rnd.value 1) (ct_rnd.value 2) 1).d1 ∧
      (2 ^^^ ct_rnd.value 2) % 2 ^ 64 ≠
        (multi_enc2.ctor 64 (ct_rnd.value 1) (ct_rnd.value 2) 1).d2 ∧
      (((multi_enc2.ctor 64 (ct_rnd.value 1) (ct_rnd.value 2) 1).set_d1
          ((2 ^^^ ct_rnd.value 1) % 2 ^ 64)).set_d2 ((2 ^^^ ct_rnd.value 2) % 2 ^ 64)).dec = 2) ∧
      ((2 ^^^ ct_rnd.value 1) % 2 ^ 64 ≠
          (multi_enc3.ctor 64 (ct_rnd.value 1) (ct_rnd.value 2) (ct_rnd.value 3) 1).d1 ∧
        (2 ^^^ ct_rnd.value 2) % 2 ^ 64 ≠
          (multi_enc3.ctor 64 (ct_rnd.value 1) (ct_rnd.value 2) (ct_rnd.value 3) 1).d2 ∧
        (2 ^^^ ct_rnd.value 3) % 2 ^ 64 ≠
          (multi_enc3.ctor 64 (ct_rnd.value 1) (ct_rnd.value 2) (ct_rnd.value 3) 1).d3 ∧
        ((((multi_enc3.ctor 64 (ct_rnd.value 1) (ct_rnd.value 2) (ct_rnd.value 3) 1).set_d1
            ((2 ^^^ ct_rnd.value 1) % 2 ^ 64)).set_d2
            ((2 ^^^ ct_rnd.value 2) % 2 ^ 64)).set_d3
            ((2 ^^^ ct_rnd.value 3) % 2 ^ 64)).dec = 2) := by
  decide

/-- Claim C12, amended. For an unsigned type of width `w`, every `v`, all keys
and every state `x1, x2 (, x3)` of the raw copies of a two-key or three-key
encoder constructed from `v`. If at least one copy differs from what the
constructor stored, then either the decodes of the copies diverge and `dec()`
returns the zero value, or every copy differs and the state is the one the
constructor builds from one other value `u`, the decodes are mutually equal
and `dec()` returns `u`. Whenever all decodes are mutually equal, `dec()`
returns their common value, and that value is `v` exactly when every copy is
as the constructor stored it. -/
theorem multi_enc_corruption (w K1 K2 K3 v x1 x2 x3 : Nat) (hv : v < 2 ^ w)
    (h1 : x1 < 2 ^ w) (h2 : x2 < 2 ^ w) (h3 : x3 < 2 ^ w) :
    ((x1 ≠ (multi_enc2.ctor w K1 K2 v).d1 ∨ x2 ≠ (multi_enc2.ctor w K1 K2 v).d2) →
        ((x1 ^^^ K1) % 2 ^ w ≠ (x2 ^^^ K2) % 2 ^ w ∧
            (multi_enc2.mk x1 x2 : multi_enc2 w K1 K2).dec = 0) ∨
          (∃ u, u < 2 ^ w ∧ u ≠ v ∧
            (multi_enc2.mk x1 x2 : multi_enc2 w K1 K2) = multi_enc2.ctor w K1 K2 u ∧
            (x1 ≠ (multi_enc2.ctor w K1 K2 v).d1 ∧ x2 ≠ (multi_enc2.ctor w K1 K2 v).d2) ∧
            (x1 ^^^ K1) % 2 ^ w = (x2 ^^^ K2) % 2 ^ w ∧
            (multi_enc2.mk x1 x2 : multi_enc2 w K1 K2).dec = u)) ∧
      ((x1 ^^^ K1) % 2 ^ w = (x2 ^^^ K2) % 2 ^ w →
        (multi_enc2.mk x1 x2 : multi_enc2 w K1 K2).dec = (x1 ^^^ K1) % 2 ^ w ∧
          ((multi_enc2.mk x1 x2 : multi_enc2 w K1 K2).dec = v ↔
            (x1 = (multi_enc2.ctor w K1 K2 v).d1 ∧ x2 = (multi_enc2.ctor w K1 K2 v).d2))) ∧
      ((x1 ≠ (multi_enc3.ctor w K1 K2 K3 v).d1 ∨ x2 ≠ (multi_enc3.ctor w K1 K2 K3 v).d2 ∨
          x3 ≠ (multi_enc3.ctor w K1 K2 K3 v).d3) →
        (¬ ((x1 ^^^ K1) % 2 ^ w = (x2 ^^^ K2) % 2 ^ w ∧
              (x2 ^^^ K2) % 2 ^ w = (x3 ^^^ K3) % 2 ^ w) ∧
            (multi_enc3.mk x1 x2 x3 : multi_enc3 w K1 K2 K3).dec = 0) ∨
          (∃ u, u < 2 ^ w ∧ u ≠ v ∧
            (multi_enc3.mk x1 x2 x3 : multi_enc3 w K1 K2 K3) = multi_enc3.ctor w K1 K2 K3 u ∧
            (x1 ≠ (multi_enc3.ctor w K1 K2 K3 v).d1 ∧ x2 ≠ (multi_enc3.ctor w K1 K2 K3 v).d2 ∧
              x3 ≠ (multi_enc3.ctor w K1 K2 K3 v).d3) ∧
            ((x1 ^^^ K1) % 2 ^ w = (x2 ^^^ K2) % 2 ^ w ∧
              (x2 ^^^ K2) % 2 ^ w = (x3 ^^^ K3) % 2 ^ w) ∧
            (multi_enc3.mk x1 x2 x3 : multi_enc3 w K1 K2 K3).dec = u)) ∧
      (((x1 ^^^ K1) % 2 ^ w = (x2 ^^^ K2) % 2 ^ w ∧
          (x2 ^^^ K2) % 2 ^ w = (x3 ^^^ K3) % 2 ^ w) →
        (multi_enc3.mk x1 x2 x3 : multi_enc3 w K1 K2 K3).dec = (x1 ^^^ K1) % 2 ^ w ∧
          ((multi_enc3.mk x1 x2 x3 : multi_enc3 w K1 K2 K3).dec = v ↔
            (x1 = (multi_enc3.ctor w K1 K2 K3 v).d1 ∧ x2 = (multi_enc3.ctor w K1 K2 K3 v).d2 ∧
              x3 = (multi_enc3.ctor w K1 K2 K3 v).d3))) := by
  have e1 := xor_trunc_eq_iff w K1 v x1 hv h1
  have e2 := xor_trunc_eq_iff w K2 v x2 hv h2
  have e3 := xor_trunc_eq_iff w K3 v x3 hv h3
  have hlt : (x1 ^^^ K1) % 2 ^ w < 2 ^ w := Nat.mod_lt _ (Nat.two_pow_pos w)
  -- the two-key encoder, equal decodes
  have agree2 : (x1 ^^^ K1) % 2 ^ w = (x2 ^^^ K2) % 2 ^ w →
      (multi_enc2.mk x1 x2 : multi_enc2 w K1 K2).dec = (x1 ^^^ K1) % 2 ^ w ∧
        ((multi_enc2.mk x1 x2 : multi_enc2 w K1 K2).dec = v ↔
          (x1 = (multi_enc2.ctor w K1 K2 v).d1 ∧ x2 = (multi_enc2.ctor w K1 K2 v).d2)) := by
    intro heq
    have hd := multi_enc2_dec_of_eq w K1 K2 x1 x2 heq
    refine ⟨hd, ?_⟩
    rw [hd]
    show (x1 ^^^ K1) % 2 ^ w = v ↔ (x1 = (v ^^^ K1) % 2 ^ w ∧ x2 = (v ^^^ K2) % 2 ^ w)
    rw [← e1, ← e2, ← heq]
    exact ⟨fun h => ⟨h, h⟩, fun h => h.1⟩
  -- the three-key encoder, equal decodes
  have agree3 : ((x1 ^^^ K1) % 2 ^ w = (x2 ^^^ K2) % 2 ^ w ∧
        (x2 ^^^ K2) % 2 ^ w = (x3 ^^^ K3) % 2 ^ w) →
      (multi_enc3.mk x1 x2 x3 : multi_enc3 w K1 K2 K3).dec = (x1 ^^^ K1) % 2 ^ w ∧
        ((multi_enc3.mk x1 x2 x3 : multi_enc3 w K1 K2 K3).dec = v ↔
          (x1 = (multi_enc3.ctor w K1 K2 K3 v).d1 ∧ x2 = (multi_enc3.ctor w K1 K2 K3 v).d2 ∧
            x3 = (multi_enc3.ctor w K1 K2 K3 v).d3)) := by
    intro heq
    have hd := multi_enc3_dec_of_eq w K1 K2 K3 x1 x2 x3 heq
    refine ⟨hd, ?_⟩
    rw [hd]
    show (x1 ^^^ K1) % 2 ^ w = v ↔
      (x1 = (v ^^^ K1) % 2 ^ w ∧ x2 = (v ^^^ K2) % 2 ^ w ∧ x3 = (v ^^^ K3) % 2 ^ w)
    rw [← e1, ← e2, ← e3, ← heq.2, ← heq.1]
    exact ⟨fun h => ⟨h, h, h⟩, fun h => h.1⟩
  refine ⟨fun hdiff => ?_, agree2, fun hdiff => ?_, agree3⟩
  · by_cases heq : (x1 ^^^ K1) % 2 ^ w = (x2 ^^^ K2) % 2 ^ w
    · right
      have ha := agree2 heq
      have hu : (x1 ^^^ K1) % 2 ^ w ≠ v := by
        intro h
        have hall := (ha.2).mp (ha.1.trans h)
        rcases hdiff with hd | hd
        · exact hd hall.1
        · exact hd hall.2
      refine ⟨(x1 ^^^ K1) % 2 ^ w, hlt, hu, multi_enc2_eq_ctor_of_eq w K1 K2 x1 x2 h1 h2 heq,
        ⟨fun h => hu (e1.mpr h), fun h => hu (heq.trans (e2.mpr h))⟩, heq, ha.1⟩
    · left
      exact ⟨heq, multi_enc2_dec_of_ne w K1 K2 x1 x2 heq⟩
  · by_cases heq : (x1 ^^^ K1) % 2 ^ w = (x2 ^^^ K2) % 2 ^ w ∧
        (x2 ^^^ K2) % 2 ^ w = (x3 ^^^ K3) % 2 ^ w
    · right
      have ha := agree3 heq
      have hu : (x1 ^^^ K1) % 2 ^ w ≠ v := by
        intro h
        have hall := (ha.2).mp (ha.1.trans h)
        rcases hdiff with hd | hd | hd
        · exact hd hall.1
        · exact hd hall.2.1
        · exact hd hall.2.2
      refine ⟨(x1 ^^^ K1) % 2 ^ w, hlt, hu,
        multi_enc3_eq_ctor_of_eq w K1 K2 K3 x1 x2 x3 h1 h2 h3 heq,
        ⟨fun h => hu (e1.mpr h), fun h => hu (heq.1.trans (e2.mpr h)),
          fun h => hu ((heq.1.trans heq.2).trans (e3.mpr h))⟩, heq, ha.1⟩
    · left
      exact ⟨heq, multi_enc3_dec_of_ne w K1 K2 K3 x1 x2 x3 heq⟩

/-- Witness of C12 amended, 8-bit type, keys `0x5A`, `0xC3`, `0x0F`, value
`0x21`. At the state `5, 6 (, 7)` every copy is overwritten and the decodes
diverge: `dec()` returns `0`. At the state `0x78, 0xE1 (, 0x2D)`, the copies
stored for `0x22`, the decodes agree: `dec()` returns `0x22`. -/
theorem multi_enc_corruption_witness :
    (((5 ^^^ 0x5A) % 2 ^ 8 ≠ (6 ^^^ 0xC3) % 2 ^ 8 ∧
          (multi_enc2.mk 5 6 : multi_enc2 8 0x5A 0xC3).dec = 0) ∧
        (¬ ((5 ^^^ 0x5A) % 2 ^ 8 = (6 ^^^ 0xC3) % 2 ^ 8 ∧
            (6 ^^^ 0xC3) % 2 ^ 8 = (7 ^^^ 0x0F) % 2 ^ 8) ∧
          (multi_enc3.mk 5 6 7 : multi_enc3 8 0x5A 0xC3 0x0F).dec = 0)) ∧
      ((multi_enc2.mk 0x78 0xE1 : multi_enc2 8 0x5A 0xC3).dec = 0x22 ∧
        (multi_enc3.mk 0x78 0xE1 0x2D : multi_enc3 8 0x5A 0xC3 0x0F).dec = 0x22) :=
  have hd := multi_enc_corruption 8 0x5A 0xC3 0x0F 0x21 5 6 7
    (by decide) (by decide) (by decide) (by decide)
  have ha := multi_enc_corruption 8 0x5A 0xC3 0x0F 0x21 0x78 0xE1 0x2D
    (by decide) (by decide) (by decide) (by decide)
  ⟨⟨(hd.1 (Or.inl (by decide))).resolve_right
        (fun ⟨_, _, _, _, _, heq, _⟩ => absurd heq (by decide)),
      (hd.2.2.1 (Or.inl (by decide))).resolve_right
        (fun ⟨_, _, _, _, _, heq, _⟩ => absurd heq (by decide))⟩,
    ⟨(ha.2.1 (by decide)).1.trans (by decide), (ha.2.2.2 (by decide)).1.trans (by decide)⟩⟩

/-- Claim C13. The key derivation gives distinct keys to distinct call sites:
two different ordinals below `2^64` have different keys, and every 64-bit word
is the key of an ordinal below `2^64`, so the derivation is a bijection on
64-bit words. -/
theorem ct_rnd_value_distinct :
    (∀ n m, n < 2 ^ 64 → m < 2 ^ 64 → n ≠ m → ct_rnd.value n ≠ ct_rnd.value m) ∧
      (∀ y, y < 2 ^ 64 → ∃ n, n < 2 ^ 64 ∧ ct_rnd.value n = y) :=
  ⟨fun n m hn hm hne h => hne (ct_rnd_value_inj n m hn hm h), ct_rnd_value_surj⟩

/-- Witness of C13: the ordinals `1` and `2` have different keys, and the word
`5` is the key of some ordinal. -/
theorem ct_rnd_value_distinct_witness :
    ct_rnd.value 1 ≠ ct_rnd.value 2 ∧ ∃ n, n < 2 ^ 64 ∧ ct_rnd.value n = 5 :=
  ⟨ct_rnd_value_distinct.1 1 2 (by decide) (by decide) (by decide),
    ct_rnd_value_distinct.2 5 (by decide)⟩

/-- Claim C14. Single pointer guard: `ptr_guard<P,Key>(a)` stores `a XOR Key`
and `get()` gives back `a`; for an arbitrary stored word `w`, `get()` returns
`w XOR Key`, whatever `w` is: there is no failure outcome. -/
theorem ptr_guard_always_resolves (Key a : Nat) :
    (ptr_guard.ctor Key a).ptr = a ^^^ Key ∧ (ptr_guard.ctor Key a).get = a ∧
      ∀ w, (ptr_guard.mk w : ptr_guard Key).get = w ^^^ Key :=
  ⟨rfl, ptr_guard_get_ctor Key a, fun _ => rfl⟩

/-- Counterexample to C15 as stated: its negation. With equal keys there is no
address `a` and no change of exactly one raw slot, `p1` or `p2`, to a different
word `x` after which `get()` returns a non-null address. -/
theorem dual_guard_equal_keys_no_undetected_single_change :
    ¬ ∃ Key a x,
      (x ≠ (dual_guard.ctor Key Key a).p1 ∧ ((dual_guard.ctor Key Key a).set_p1 x).get ≠ 0) ∨
        (x ≠ (dual_guard.ctor Key Key a).p2 ∧ ((dual_guard.ctor Key Key a).set_p2 x).get ≠ 0) := by
  rintro ⟨Key, a, x, ⟨hne, hget⟩ | ⟨hne, hget⟩⟩
  · exact hget (dual_guard_get_set_p1 Key Key a x hne)
  · exact hget (dual_guard_get_set_p2 Key Key a x hne)

/-- Claim C15, amended. With `Key1 == Key2` the single-copy tamper detection of
`dual_guard` still holds: after exactly one raw slot is changed to a different
word, `get()` returns null. What the collision removes is the detection of an
overwrite of both slots with one word `w`: `get()` then returns `w XOR Key`,
which is not null for `w` other than `Key`. -/
theorem dual_guard_equal_keys (Key a : Nat) :
    (∀ x, x ≠ (dual_guard.ctor Key Key a).p1 →
        ((dual_guard.ctor Key Key a).set_p1 x).get = 0) ∧
      (∀ x, x ≠ (dual_guard.ctor Key Key a).p2 →
        ((dual_guard.ctor Key Key a).set_p2 x).get = 0) ∧
      (∀ w, w ≠ Key →
        (((dual_guard.ctor Key Key a).set_p1 w).set_p2 w).get = w ^^^ Key ∧
          (((dual_guard.ctor Key Key a).set_p1 w).set_p2 w).get ≠ 0) := by
  refine ⟨fun x hne => dual_guard_get_set_p1 Key Key a x hne,
    fun x hne => dual_guard_get_set_p2 Key Key a x hne, fun w hw => ?_⟩
  have hg : (((dual_guard.ctor Key Key a).set_p1 w).set_p2 w).get = w ^^^ Key := by
    have h := dual_guard_get_same_word Key Key w
    rw [if_pos rfl] at h
    exact h
  refine ⟨hg, ?_⟩
  rw [hg]
  exact fun h => hw (Nat.xor_eq_zero.mp h)

/-- Witness of C15 amended: key of ordinal 7 twice, the address of `add`; one
slot overwritten by the address of `multiply`, and both slots overwritten by it. -/
theorem dual_guard_equal_keys_witness :
    ((dual_guard.ctor (ct_rnd.value 7) (ct_rnd.value 7) add_addr).set_p1 multiply_addr).get = 0 ∧
      ((dual_guard.ctor (ct_rnd.value 7) (ct_rnd.value 7) add_addr).set_p2 multiply_addr).get
        = 0 ∧
      (((dual_guard.ctor (ct_rnd.value 7) (ct_rnd.value 7) add_addr).set_p1
          multiply_addr).set_p2 multiply_addr).get = multiply_addr ^^^ ct_rnd.value 7 ∧
      (((dual_guard.ctor (ct_rnd.value 7) (ct_rnd.value 7) add_addr).set_p1
          multiply_addr).set_p2 multiply_addr).get ≠ 0 :=
  have h := dual_guard_equal_keys (ct_rnd.value 7) add_addr
  ⟨h.1 multiply_addr (by decide), h.2.1 multiply_addr (by decide),
    (h.2.2 multiply_addr (by decide)).1, (h.2.2 multiply_addr (by decide)).2⟩

/-- Claim C16. The key of ordinal `0` is `0`, and the key of every ordinal from
`1` to `2^64 - 1` is not `0`; hence the check scalar `IVS_CALL` hands to
`call_ctx` is zero exactly when the ordinal of the expansion is `0`: there
`IVS_CALL` returns the zero value without a call, and at every other ordinal it
is one call of the target. -/
theorem ct_rnd_zero_key_only_at_zero {R A σ : Type} [Zero R] (func : A → σ → R × σ)
    (args : A) (s : σ) :
    ct_rnd.value 0 = 0 ∧
      (∀ n, 1 ≤ n → n < 2 ^ 64 → ct_rnd.value n ≠ 0) ∧
      (∀ n, n < 2 ^ 64 →
        ((make_ctx R (fun (_ : Unit) => func args) (ct_rnd.value n)).check = 0 ↔ n = 0)) ∧
      IVS_CALL 0 func args s = (0, s) ∧
      (∀ n, 1 ≤ n → n < 2 ^ 64 → IVS_CALL n func args s = func args s) := by
  refine ⟨ct_rnd_value_zero, fun n h1 hn => ct_rnd_value_ne_zero n h1 hn, fun n hn => ?_,
    IVS_CALL_zero func args s, fun n h1 hn => IVS_CALL_of_pos n h1 hn func args s⟩
  show ct_rnd.value n = 0 ↔ n = 0
  constructor
  · intro h
    by_contra hne
    exact ct_rnd_value_ne_zero n (Nat.pos_of_ne_zero hne) hn h
  · intro h
    rw [h]
    exact ct_rnd_value_zero

/-- Witness of C16: `add` called with `(10, 5)` through `IVS_CALL` at the
ordinals `0` and `1`. -/
theorem ct_rnd_zero_key_only_at_zero_witness :
    ct_rnd.value 0 = 0 ∧ ct_rnd.value 1 ≠ 0 ∧
      ((make_ctx Int (fun (_ : Unit) => (pure2 add (10, 5) : Unit → Int × Unit))
          (ct_rnd.value 1)).check = 0 ↔
        (1 : Nat) = 0) ∧
      IVS_CALL 0 (pure2 add) (10, 5) () = (0, ()) ∧
      IVS_CALL 1 (pure2 add) (10, 5) () = pure2 add (10, 5) () :=
  have h := ct_rnd_zero_key_only_at_zero (pure2 add) ((10 : Int), (5 : Int)) ()
  ⟨h.1, h.2.1 1 (by decide) (by decide), h.2.2.1 1 (by decide), h.2.2.2.1,
    h.2.2.2.2 1 (by decide) (by decide)⟩

/-- Claim C17. A dual guard whose two raw slots hold one word `w`: if
`Key1 != Key2`, `get()` returns null; if the keys are equal, `get()` returns
`w XOR Key1`, which is not null for every `w` other than `Key1`. -/
theorem dual_guard_both_slots_same_word (Key1 Key2 w : Nat) :
    (Key1 ≠ Key2 → (dual_guard.mk w w : dual_guard Key1 Key2).get = 0) ∧
      (dual_guard.mk w w : dual_guard Key1 Key1).get = w ^^^ Key1 ∧
      (w ≠ Key1 → (dual_guard.mk w w : dual_guard Key1 Key1).get ≠ 0) := by
  have hsame : (dual_guard.mk w w : dual_guard Key1 Key1).get = w ^^^ Key1 := by
    rw [dual_guard_get_same_word, if_pos rfl]
  refine ⟨fun hk => ?_, hsame, fun hw => ?_⟩
  · rw [dual_guard_get_same_word, if_neg hk]
  · rw [hsame]
    exact fun h => hw (Nat.xor_eq_zero.mp h)

/-- Witness of C17: the address of `multiply` in both slots, under the keys of
ordinals 7 and 8, and under the key of ordinal 7 twice. -/
theorem dual_guard_both_slots_same_word_witness :
    (dual_guard.mk multiply_addr multiply_addr :
        dual_guard (ct_rnd.value 7) (ct_rnd.value 8)).get = 0 ∧
      (dual_guard.mk multiply_addr multiply_addr :
        dual_guard (ct_rnd.value 7) (ct_rnd.value 7)).get ≠ 0 :=
  ⟨(dual_guard_both_slots_same_word (ct_rnd.value 7) (ct_rnd.value 8) multiply_addr).1
      (by decide),
    (dual_guard_both_slots_same_word (ct_rnd.value 7) (ct_rnd.value 7) multiply_addr).2.2
      (by decide)⟩

end ivs
